import Mathlib

/-!
Shallow embedding of the two binary decoders of the Android_Java_Tools
repository: the JVM class-file decoder (crate `classParser`) and the DEX
decoder (crate `dexParser`), together with theorems settling the claims
about them.

Conventions of the embedding:
* a byte buffer is a `List Nat` whose elements are meant to be `< 256`
  (every primitive read normalises with `% 256`, which is the identity on
  genuine `u8` data);
* a fallible Rust parser `fn parse(&[u8]) -> IResult<&[u8], T>` becomes a
  Lean function `List Nat → Option (T × List Nat)`; both a nom error and a
  Rust panic (slice/index out of bounds, `unwrap` failure) are modelled as
  `none`;
* machine integers are `Nat` with an explicit `% 2^w` wherever the Rust
  operation can overflow; wrapping subtraction `a - b` on `uN` becomes
  `(a + 2^N - b) % 2^N`; an overflowing shift `x << s` on `u32` becomes
  `x <<< (s % 32)` (the release-mode masking semantics; a debug build
  panics instead, which is noted at the relevant claim);
* loops that are not structurally recursive take a fuel argument; the
  top-level entry points pass `buffer length + 1` fuel, which is always
  sufficient because every loop iteration consumes at least one byte.
  All success-conditioned theorems are proved for every fuel value.
-/

/-- Big-endian one-byte read (`nom::number::complete::be_u8`): fails on an
empty input, otherwise yields the first byte and the remaining input. -/
def be_u8 : List Nat → Option (Nat × List Nat)
  | [] => none
  | b :: rest => some (b % 256, rest)

/-- Big-endian two-byte read (`nom::number::complete::be_u16`). -/
def be_u16 (bytes : List Nat) : Option (Nat × List Nat) :=
  match be_u8 bytes with
  | none => none
  | some (b0, rest) =>
    match be_u8 rest with
    | none => none
    | some (b1, rest) => some (b0 * 256 + b1, rest)

/-- Big-endian four-byte read (`nom::number::complete::be_u32`). -/
def be_u32 (bytes : List Nat) : Option (Nat × List Nat) :=
  match be_u16 bytes with
  | none => none
  | some (h, rest) =>
    match be_u16 rest with
    | none => none
    | some (l, rest) => some (h * 65536 + l, rest)

/-- Little-endian two-byte read (`nom::number::complete::le_u16`). -/
def le_u16 (bytes : List Nat) : Option (Nat × List Nat) :=
  match be_u8 bytes with
  | none => none
  | some (b0, rest) =>
    match be_u8 rest with
    | none => none
    | some (b1, rest) => some (b1 * 256 + b0, rest)

/-- Little-endian four-byte read (`nom::number::complete::le_u32`). -/
def le_u32 (bytes : List Nat) : Option (Nat × List Nat) :=
  match le_u16 bytes with
  | none => none
  | some (l, rest) =>
    match le_u16 rest with
    | none => none
    | some (h, rest) => some (h * 65536 + l, rest)

/-- The `nom::multi::count` combinator: run a sub-parser exactly `n` times
in sequence, collecting the results. -/
def countN (p : List Nat → Option (α × List Nat)) :
    Nat → List Nat → Option (List α × List Nat)
  | 0, bytes => some ([], bytes)
  | n + 1, bytes =>
    match p bytes with
    | none => none
    | some (a, rest) =>
      match countN p n rest with
      | none => none
      | some (as, rest') => some (a :: as, rest')

namespace dexParser

/-- Loop body of `parse_uleb128` (dexParser/src/leb128.rs, lines 7-14):
`for byte in bytes { result |= ((byte & 0x7f) as u32) << shift;
 if byte & 0x80 == 0 { break; } i += 1; shift += 7; }`.
The `u32` accumulation is modelled with `% 2 ^ 32`; the shift amount is
masked with `% 32` (release-mode Rust semantics for an overflowing shift;
a debug build panics once `shift` reaches 35). -/
def parse_uleb128_loop : List Nat → Nat → Nat → Nat → Nat × Nat
  | [], result, _shift, i => (result, i)
  | b :: rest, result, shift, i =>
    let result := (result ||| (((b % 256) &&& 0x7f) <<< (shift % 32))) % 2 ^ 32
    if (b % 256) &&& 0x80 == 0 then (result, i)
    else parse_uleb128_loop rest result (shift + 7) (i + 1)

/-- `parse_uleb128` (dexParser/src/leb128.rs, lines 3-16): returns the
decoded value and the number of bytes consumed, starting from
`result = 0`, `shift = 0`, `i = 1`.  The function has no error return and
enforces no cap on the number of continuation bytes. -/
def parse_uleb128 (bytes : List Nat) : Nat × Nat :=
  parse_uleb128_loop bytes 0 0 1

/-- `parse_uleb128_nom` (dexParser/src/leb128.rs, lines 18-21): wraps
`parse_uleb128`, splitting the input at the consumed count.  Rust's
`split_at(i)` panics when `i` exceeds the input length (which happens when
the buffer ends in a continuation byte), modelled as `none`. -/
def parse_uleb128_nom (bytes : List Nat) : Option (Nat × List Nat) :=
  let (result, i) := parse_uleb128 bytes
  if i ≤ bytes.length then some (result, bytes.drop i) else none

/-- Reference minimal ULEB128 encoder, modelled from the spec (section 8,
varint round-trip property): emit 7 bits per byte, least-significant
first, setting the continuation bit on every byte but the last.  Five
output bytes cover every 32-bit value, so five fuel steps suffice. -/
def encode_uleb128_fuel : Nat → Nat → List Nat
  | 0, _ => []
  | fuel + 1, v =>
    if v < 128 then [v] else (v % 128 + 128) :: encode_uleb128_fuel fuel (v / 128)

/-- Reference minimal ULEB128 encoder for 32-bit values. -/
def encode_uleb128 (v : Nat) : List Nat :=
  encode_uleb128_fuel 5 v

end dexParser

/-- Standard UTF-8 validity check on a byte sequence, as performed by
Rust's `String::from_utf8` (used by the tag-1 constant-pool arm, where an
invalid sequence makes the `unwrap` panic). -/
def utf8Valid : List Nat → Bool
  | [] => true
  | b :: rest =>
    let b0 := b % 256
    if b0 < 0x80 then utf8Valid rest
    else if b0 < 0xc2 then false
    else if b0 < 0xe0 then
      match rest with
      | c1 :: rest' => decide (0x80 ≤ c1 % 256 ∧ c1 % 256 < 0xc0) && utf8Valid rest'
      | [] => false
    else if b0 < 0xf0 then
      match rest with
      | c1 :: c2 :: rest' =>
        (if b0 = 0xe0 then decide (0xa0 ≤ c1 % 256 ∧ c1 % 256 < 0xc0)
         else if b0 = 0xed then decide (0x80 ≤ c1 % 256 ∧ c1 % 256 < 0xa0)
         else decide (0x80 ≤ c1 % 256 ∧ c1 % 256 < 0xc0)) &&
        decide (0x80 ≤ c2 % 256 ∧ c2 % 256 < 0xc0) && utf8Valid rest'
      | _ => false
    else if b0 < 0xf5 then
      match rest with
      | c1 :: c2 :: c3 :: rest' =>
        (if b0 = 0xf0 then decide (0x90 ≤ c1 % 256 ∧ c1 % 256 < 0xc0)
         else if b0 = 0xf4 then decide (0x80 ≤ c1 % 256 ∧ c1 % 256 < 0x90)
         else decide (0x80 ≤ c1 % 256 ∧ c1 % 256 < 0xc0)) &&
        decide (0x80 ≤ c2 % 256 ∧ c2 % 256 < 0xc0) &&
        decide (0x80 ≤ c3 % 256 ∧ c3 % 256 < 0xc0) && utf8Valid rest'
      | _ => false
    else false

/-- Named access flags (base/src/access_flag.rs). -/
inductive AccessFlag where
  | Public | Private | Protected | Static | Final | Super | Synchronized
  | Volatile | Bridge | Transient | Varargs | Native | Interface | Abstract
  | Strict | Synthetic | Annotation | Enum
deriving DecidableEq

/-- Mask table for class flags (base/src/access_flag.rs, CLASS_ACC). -/
def CLASS_ACC : List (Nat × AccessFlag) :=
  [(0x0001, .Public), (0x0010, .Final), (0x0020, .Super), (0x0200, .Interface),
   (0x0400, .Abstract), (0x1000, .Synthetic), (0x2000, AccessFlag.Annotation), (0x4000, .Enum)]

/-- Mask table for field flags (base/src/access_flag.rs, FIELD_ACC). -/
def FIELD_ACC : List (Nat × AccessFlag) :=
  [(0x0001, .Public), (0x0002, .Private), (0x0004, .Protected), (0x0008, .Static),
   (0x0010, .Final), (0x0040, .Volatile), (0x0080, .Transient), (0x1000, .Synthetic),
   (0x4000, .Enum)]

/-- Mask table for method flags (base/src/access_flag.rs, METHOD_ACC). -/
def METHOD_ACC : List (Nat × AccessFlag) :=
  [(0x0001, .Public), (0x0002, .Private), (0x0004, .Protected), (0x0008, .Static),
   (0x0010, .Final), (0x0020, .Synchronized), (0x0040, .Bridge), (0x0080, .Varargs),
   (0x0100, .Native), (0x0400, .Abstract), (0x0800, .Strict), (0x1000, .Synthetic)]

/-- The flag-set wrapper `AccessFlags(Vec<AccessFlag>, u16)`.  The
`classParser` crate declares its own `access_flag` module, whose file is
not present under src/; it is modelled from base/src/access_flag.rs, the
shared Access-Flag Mapper the spec describes for both formats. -/
structure AccessFlags where
  flags : List AccessFlag
  raw : Nat
deriving DecidableEq

/-- The filter `flag & i == *i` over a mask table. -/
def mkAccessFlags (table : List (Nat × AccessFlag)) (flag : Nat) : AccessFlags :=
  ⟨(table.filter (fun p => (flag % 65536) &&& p.1 == p.1)).map (·.2), flag % 65536⟩

def AccessFlags.new_class_flag (flag : Nat) : AccessFlags := mkAccessFlags CLASS_ACC flag

def AccessFlags.new_field_flag (flag : Nat) : AccessFlags := mkAccessFlags FIELD_ACC flag

def AccessFlags.new_method_flag (flag : Nat) : AccessFlags := mkAccessFlags METHOD_ACC flag

namespace classParser

/-- Constant-pool entry payloads (classParser/src/constant_pool.rs,
`enum ConstantType`).  `Utf8` keeps the raw bytes that Rust turns into a
`String`; `Float`/`Double` keep the raw big-endian bit patterns that Rust
feeds to `parse_float`/`parse_double` (no claim depends on the IEEE-754
value reconstruction). -/
inductive ConstantType where
  | Utf8 (value : List Nat)
  | Integer (value : Nat)
  | Float (bits : Nat)
  | Long (value : Nat)
  | Double (bits : Nat)
  | Class (name_index : Nat)
  | String (string_index : Nat)
  | Fieldref (class_index name_and_type_index : Nat)
  | Methodref (class_index name_and_type_index : Nat)
  | InterfaceMethodref (class_index name_and_type_index : Nat)
  | NameAndType (name_index descriptor_index : Nat)
  | MethodHandle (reference_kind reference_index : Nat)
  | MethodType (descriptor_index : Nat)
  | InvokeDynamic (bootstrap_method_attr_index name_and_type_index : Nat)
  | Empty
deriving DecidableEq

/-- `ConstantType::value` (constant_pool.rs, lines 226-244). -/
def ConstantType.value : ConstantType → Nat
  | .Utf8 _ => 1
  | .Integer _ => 3
  | .Float _ => 4
  | .Long _ => 5
  | .Double _ => 6
  | .Class _ => 7
  | .String _ => 8
  | .Fieldref _ _ => 9
  | .Methodref _ _ => 10
  | .InterfaceMethodref _ _ => 11
  | .NameAndType _ _ => 12
  | .MethodHandle _ _ => 15
  | .MethodType _ => 16
  | .InvokeDynamic _ _ => 18
  | .Empty => 0

/-- `ConstantType::parse` (constant_pool.rs, lines 122-224): one tag byte,
then a tag-specific payload.  The default arm logs the unknown tag and
returns `Utf8("")`, consuming nothing beyond the tag byte. -/
def ConstantType.parse (bytes : List Nat) : Option (ConstantType × List Nat) :=
  match be_u8 bytes with
  | none => none
  | some (tag, bytes) =>
    if tag = 1 then
      match be_u16 bytes with
      | none => none
      | some (length, bytes) =>
        if length ≤ bytes.length then
          let value := bytes.take length
          -- String::from_utf8(..).unwrap() panics on invalid UTF-8
          if utf8Valid value then some (.Utf8 value, bytes.drop length) else none
        else none
    else if tag = 3 then
      match be_u32 bytes with
      | none => none
      | some (value, bytes) => some (.Integer value, bytes)
    else if tag = 4 then
      match be_u32 bytes with
      | none => none
      | some (value, bytes) => some (.Float value, bytes)
    else if tag = 5 then
      match be_u32 bytes with
      | none => none
      | some (hight_value, bytes) =>
        match be_u32 bytes with
        | none => none
        | some (low_value, bytes) => some (.Long (hight_value <<< 32 ||| low_value), bytes)
    else if tag = 6 then
      match be_u32 bytes with
      | none => none
      | some (hight_value, bytes) =>
        match be_u32 bytes with
        | none => none
        | some (low_value, bytes) => some (.Double (hight_value <<< 32 ||| low_value), bytes)
    else if tag = 7 then
      match be_u16 bytes with
      | none => none
      | some (name_index, bytes) => some (.Class name_index, bytes)
    else if tag = 8 then
      match be_u16 bytes with
      | none => none
      | some (string_index, bytes) => some (.String string_index, bytes)
    else if tag = 9 ∨ tag = 10 ∨ tag = 11 then
      match be_u16 bytes with
      | none => none
      | some (class_index, bytes) =>
        match be_u16 bytes with
        | none => none
        | some (name_and_type_index, bytes) =>
          if tag = 9 then some (.Fieldref class_index name_and_type_index, bytes)
          else if tag = 10 then some (.Methodref class_index name_and_type_index, bytes)
          else some (.InterfaceMethodref class_index name_and_type_index, bytes)
    else if tag = 12 then
      match be_u16 bytes with
      | none => none
      | some (name_index, bytes) =>
        match be_u16 bytes with
        | none => none
        | some (descriptor_index, bytes) => some (.NameAndType name_index descriptor_index, bytes)
    else if tag = 15 then
      match be_u8 bytes with
      | none => none
      | some (reference_kind, bytes) =>
        match be_u16 bytes with
        | none => none
        | some (reference_index, bytes) => some (.MethodHandle reference_kind reference_index, bytes)
    else if tag = 16 then
      match be_u16 bytes with
      | none => none
      | some (descriptor_index, bytes) => some (.MethodType descriptor_index, bytes)
    else if tag = 18 then
      match be_u16 bytes with
      | none => none
      | some (bootstrap_method_attr_index, bytes) =>
        match be_u16 bytes with
        | none => none
        | some (name_and_type_index, bytes) =>
          some (.InvokeDynamic bootstrap_method_attr_index name_and_type_index, bytes)
    else
      some (.Utf8 [], bytes)

/-- A constant-pool slot (constant_pool.rs, `struct ConstantPoolInfo`). -/
structure ConstantPoolInfo where
  tag : Nat
  info : ConstantType
deriving DecidableEq

/-- `ConstantPoolInfo::parse` (constant_pool.rs, lines 79-89). -/
def ConstantPoolInfo.parse (bytes : List Nat) : Option (ConstantPoolInfo × List Nat) :=
  match ConstantType.parse bytes with
  | none => none
  | some (cp, bytes) => some (⟨cp.value, cp⟩, bytes)

/-- `ConstantPoolInfo::is_double_size` (constant_pool.rs, lines 91-97). -/
def ConstantPoolInfo.is_double_size (c : ConstantPoolInfo) : Bool :=
  match c.info with
  | .Double _ => true
  | .Long _ => true
  | _ => false

/-- `ConstantPoolInfo::is_utf8` (constant_pool.rs, lines 99-104). -/
def ConstantPoolInfo.is_utf8 (c : ConstantPoolInfo) : Bool :=
  match c.info with
  | .Utf8 _ => true
  | _ => false

/-- `ConstantPoolInfo::as_utf8` (constant_pool.rs, lines 106-111). -/
def ConstantPoolInfo.as_utf8 (c : ConstantPoolInfo) : Option (List Nat) :=
  match c.info with
  | .Utf8 value => some value
  | _ => none

/-- `ConstantPoolInfo::new_empty` (constant_pool.rs, lines 113-118). -/
def ConstantPoolInfo.new_empty : ConstantPoolInfo :=
  ⟨0, .Empty⟩

/-- The `while pool_count > 0` loop of `ClassFile::parse_constant_pool`
(raw_class.rs, lines 37-48).  `pool_count` is a `u16`; the decrements
`pool_count -= 1` / `pool_count -= 2` are modelled with wrapping 16-bit
subtraction (release-mode semantics; a debug build panics on the wrap).
Each iteration consumes at least the tag byte, so `bytes.length + 1` fuel
is always sufficient. -/
def parse_constant_pool_loop : Nat → Nat → List Nat → Option (List ConstantPoolInfo × List Nat)
  | 0, _, _ => none
  | _fuel + 1, 0, bytes => some ([], bytes)
  | fuel + 1, n + 1, bytes =>
    match ConstantPoolInfo.parse bytes with
    | none => none
    | some (constant_pool_info, rest) =>
      if constant_pool_info.is_double_size then
        match parse_constant_pool_loop fuel ((n + 1 + 65534) % 65536) rest with
        | none => none
        | some (pool, rest') =>
          some (constant_pool_info :: ConstantPoolInfo.new_empty :: pool, rest')
      else
        match parse_constant_pool_loop fuel (n % 65536) rest with
        | none => none
        | some (pool, rest') => some (constant_pool_info :: pool, rest')

/-- `ClassFile::parse_constant_pool` (raw_class.rs, lines 30-50): decode
entries until the wrapping counter, initialised to `pool_count - 1`
(wrapping 16-bit subtraction), reaches zero. -/
def parse_constant_pool (bytes : List Nat) (pool_count : Nat) :
    Option (List ConstantPoolInfo × List Nat) :=
  parse_constant_pool_loop (bytes.length + 1) ((pool_count + 65535) % 65536) bytes

/-- Operand-byte count per opcode (opcodes.rs, `CODE_OP_CNT_MAP`): `none`
for opcodes absent from the map. -/
def CODE_OP_CNT_MAP (code : Nat) : Option Nat :=
  match code with
  | 0x01 | 0x02 | 0x03 | 0x04 | 0x05 | 0x06 | 0x07 | 0x08 | 0x09 | 0x0a
  | 0x0b | 0x0c | 0x0d | 0x0e | 0x0f
  | 0x26 | 0x27 | 0x28 | 0x29 | 0x2a | 0x2b | 0x2c | 0x2d
  | 0x32 | 0x53 | 0xaf | 0xb1 => some 0
  | 0x10 | 0x12 => some 1
  | 0x11 | 0x13 | 0x14 | 0xb4 | 0xb5 | 0xb7 | 0xbd => some 2
  | _ => none

/-- One decoded JVM instruction (opcodes.rs, `struct CodeInfo`). -/
structure CodeInfo where
  code : Nat
  index_byte1 : Option Nat
  index_byte2 : Option Nat
deriving DecidableEq

/-- `CodeInfo::parse` (opcodes.rs, lines 141-169): opcode byte, then 0, 1
or 2 operand bytes per `CODE_OP_CNT_MAP`; an unknown opcode is logged and
treated as having no operands. -/
def CodeInfo.parse (bytes : List Nat) : Option (CodeInfo × List Nat) :=
  match be_u8 bytes with
  | none => none
  | some (code, bytes) =>
    match CODE_OP_CNT_MAP code with
    | some 0 => some (⟨code, none, none⟩, bytes)
    | some 1 =>
      match be_u8 bytes with
      | none => none
      | some (b1, bytes) => some (⟨code, some b1, none⟩, bytes)
    | some 2 =>
      match be_u8 bytes with
      | none => none
      | some (b1, bytes) =>
        match be_u8 bytes with
        | none => none
        | some (b2, bytes) => some (⟨code, some b1, some b2⟩, bytes)
    | none => some (⟨code, none, none⟩, bytes)
    | some _ => none  -- unreachable in the source: the map only holds 0/1/2

/-- The `while code_bytes.len() > 0` loop of `parse_code_infos`
(attribute/code.rs, lines 34-45).  Every iteration consumes at least the
opcode byte, so `length + 1` fuel is always sufficient. -/
def parse_code_infos_loop : Nat → List Nat → Option (List CodeInfo)
  | 0, _ => none
  | _fuel + 1, [] => some []
  | fuel + 1, b :: rest =>
    match CodeInfo.parse (b :: rest) with
    | none => none
    | some (code_info, rest') =>
      match parse_code_infos_loop fuel rest' with
      | none => none
      | some code_infos => some (code_info :: code_infos)

/-- `parse_code_infos` (attribute/code.rs, lines 34-45). -/
def parse_code_infos (bytes : List Nat) : Option (List CodeInfo) :=
  parse_code_infos_loop (bytes.length + 1) bytes

/-- Exception-table entry (attribute/code.rs, `struct ExceptionTable`). -/
structure ExceptionTable where
  start_pc : Nat
  end_pc : Nat
  handler_pc : Nat
  catch_type : Nat
deriving DecidableEq

/-- `ExceptionTable::parse` (attribute/code.rs, lines 78-91). -/
def ExceptionTable.parse (bytes : List Nat) : Option (ExceptionTable × List Nat) :=
  match be_u16 bytes with
  | none => none
  | some (start_pc, bytes) =>
    match be_u16 bytes with
    | none => none
    | some (end_pc, bytes) =>
      match be_u16 bytes with
      | none => none
      | some (handler_pc, bytes) =>
        match be_u16 bytes with
        | none => none
        | some (catch_type, bytes) => some (⟨start_pc, end_pc, handler_pc, catch_type⟩, bytes)

/-- Verification type tags (attribute/stack_map_table.rs,
`enum VerificationTypeInfo`). -/
inductive VerificationTypeInfo where
  | Top | Integer | Float | Long | Double | Null | UninitializedThis
  | Object (cpool_index : Nat)
  | Uninitialized (offset : Nat)
  | Invalid
deriving DecidableEq

/-- `VerificationTypeInfo::parse` (stack_map_table.rs, lines 122-153). -/
def VerificationTypeInfo.parse (bytes : List Nat) : Option (VerificationTypeInfo × List Nat) :=
  match be_u8 bytes with
  | none => none
  | some (tag, bytes) =>
    if tag = 0 then some (.Top, bytes)
    else if tag = 1 then some (.Integer, bytes)
    else if tag = 2 then some (.Float, bytes)
    else if tag = 3 then some (.Long, bytes)
    else if tag = 4 then some (.Double, bytes)
    else if tag = 5 then some (.Null, bytes)
    else if tag = 6 then some (.UninitializedThis, bytes)
    else if tag = 7 then
      match be_u16 bytes with
      | none => none
      | some (cpool_index, bytes) => some (.Object cpool_index, bytes)
    else if tag = 8 then
      match be_u16 bytes with
      | none => none
      | some (offset, bytes) => some (.Uninitialized offset, bytes)
    else some (.Invalid, bytes)

/-- Stack-map frame variants (stack_map_table.rs, `enum StackMapFrame`). -/
inductive StackMapFrame where
  | SameFrame (frame_type : Nat)
  | SameLocals1StackItemFrame (frame_type : Nat) (info : VerificationTypeInfo)
  | SameLocals1StackItemFrameExtended (frame_type offset_delta : Nat)
      (info : VerificationTypeInfo)
  | ChopFrame (frame_type offset_delta : Nat)
  | SameFrameExtended (frame_type offset_delta : Nat)
  | AppendFrame (frame_type offset_delta : Nat) (locals : List VerificationTypeInfo)
  | FullFrame (frame_type offset_delta : Nat)
      (locals stack : List VerificationTypeInfo)
  | Invalid
deriving DecidableEq

/-- `StackMapFrame::parse` (stack_map_table.rs, lines 66-119): the variant
is selected by the numeric range of the frame-type byte.  The final arm is
`255` (the match on `u8` is exhaustive, and `be_u8` yields a value below
256). -/
def StackMapFrame.parse (bytes : List Nat) : Option (StackMapFrame × List Nat) :=
  match be_u8 bytes with
  | none => none
  | some (frame_type, bytes) =>
    if frame_type ≤ 63 then some (.SameFrame frame_type, bytes)
    else if frame_type ≤ 127 then
      match VerificationTypeInfo.parse bytes with
      | none => none
      | some (verification_type_info, bytes) =>
        some (.SameLocals1StackItemFrame frame_type verification_type_info, bytes)
    else if frame_type ≤ 246 then some (.Invalid, bytes)
    else if frame_type = 247 then
      match be_u16 bytes with
      | none => none
      | some (offset_delta, bytes) =>
        match VerificationTypeInfo.parse bytes with
        | none => none
        | some (verification_type_info, bytes) =>
          some (.SameLocals1StackItemFrameExtended frame_type offset_delta
                  verification_type_info, bytes)
    else if frame_type ≤ 250 then
      match be_u16 bytes with
      | none => none
      | some (offset_delta, bytes) => some (.ChopFrame frame_type offset_delta, bytes)
    else if frame_type = 251 then
      match be_u16 bytes with
      | none => none
      | some (offset_delta, bytes) => some (.SameFrameExtended frame_type offset_delta, bytes)
    else if frame_type ≤ 254 then
      match be_u16 bytes with
      | none => none
      | some (offset_delta, bytes) =>
        match countN VerificationTypeInfo.parse (frame_type - 251) bytes with
        | none => none
        | some (verification_type_info, bytes) =>
          some (.AppendFrame frame_type offset_delta verification_type_info, bytes)
    else
      match be_u16 bytes with
      | none => none
      | some (offset_delta, bytes) =>
        match be_u16 bytes with
        | none => none
        | some (number_of_locals, bytes) =>
          match countN VerificationTypeInfo.parse number_of_locals bytes with
          | none => none
          | some (locals, bytes) =>
            match be_u16 bytes with
            | none => none
            | some (number_of_stack_items, bytes) =>
              match countN VerificationTypeInfo.parse number_of_stack_items bytes with
              | none => none
              | some (stack, bytes) =>
                some (.FullFrame frame_type offset_delta locals stack, bytes)

/-- StackMapTable attribute payload (stack_map_table.rs). -/
structure StackMapTable where
  number_of_entries : Nat
  entries : List StackMapFrame
deriving DecidableEq

/-- `StackMapTable::parse` (stack_map_table.rs, lines 46-64). -/
def StackMapTable.parse (bytes : List Nat) : Option (StackMapTable × List Nat) :=
  match be_u16 bytes with
  | none => none
  | some (number_of_entries, bytes) =>
    match countN StackMapFrame.parse number_of_entries bytes with
    | none => none
    | some (entries, bytes) => some (⟨number_of_entries, entries⟩, bytes)

/-- ConstantValue attribute payload (attribute/mod.rs). -/
structure ConstantValue where
  constantvalue_index : Nat
deriving DecidableEq

/-- `ConstantValue::parse` (attribute/mod.rs, lines 197-207). -/
def ConstantValue.parse (bytes : List Nat) : Option (ConstantValue × List Nat) :=
  match be_u16 bytes with
  | none => none
  | some (constantvalue_index, bytes) => some (⟨constantvalue_index⟩, bytes)

/-- SourceFile attribute payload (attribute/mod.rs). -/
structure SourceFile where
  sourcefile_index : Nat
deriving DecidableEq

/-- `SourceFile::parse` (attribute/mod.rs, lines 220-230). -/
def SourceFile.parse (bytes : List Nat) : Option (SourceFile × List Nat) :=
  match be_u16 bytes with
  | none => none
  | some (sourcefile_index, bytes) => some (⟨sourcefile_index⟩, bytes)

/-- One (start-pc, line-number) pair (attribute/linenumber_table.rs,
`struct LineNumberTable`).  Note that the attribute dispatch in
attribute/mod.rs parses exactly one such pair for a LineNumberTable
attribute (it uses `LineNumberTable::parse`, not the list-carrying
`LineNumberTableAttribute::parse`). -/
structure LineNumberTable where
  start_pc : Nat
  line_number : Nat
deriving DecidableEq

/-- `LineNumberTable::parse` (attribute/linenumber_table.rs, lines 34-50). -/
def LineNumberTable.parse (bytes : List Nat) : Option (LineNumberTable × List Nat) :=
  match be_u16 bytes with
  | none => none
  | some (start_pc, bytes) =>
    match be_u16 bytes with
    | none => none
    | some (line_number, bytes) => some (⟨start_pc, line_number⟩, bytes)

/-- Recognised attribute names (attribute/mod.rs, lines 17-22), as the
UTF-8 byte sequences of the string constants. -/
def CODE_ATTRIBUTE_NAME : List Nat := [67, 111, 100, 101]

def CONSTANT_VALUE_ATTRIBUTE_NAME : List Nat :=
  [67, 111, 110, 115, 116, 97, 110, 116, 86, 97, 108, 117, 101]

def STACK_MAP_TABLE_ATTRIBUTE_NAME : List Nat :=
  [83, 116, 97, 99, 107, 77, 97, 112, 84, 97, 98, 108, 101]

def LINE_NUMBER_TABLE_ATTRIBUTE_NAME : List Nat :=
  [76, 105, 110, 101, 78, 117, 109, 98, 101, 114, 84, 97, 98, 108, 101]

def SOURCE_FILE_ATTRIBUTE_NAME : List Nat :=
  [83, 111, 117, 114, 99, 101, 70, 105, 108, 101]

def DEPRECATED_ATTRIBUTE_NAME : List Nat :=
  [68, 101, 112, 114, 101, 99, 97, 116, 101, 100]

mutual
/-- Attribute payload variants (attribute/mod.rs, `enum Attribute`). -/
inductive Attribute where
  | Code (code : CodeAttribute)
  | Constant (constant : ConstantValue)
  | StackMapTable (stack_map_table : StackMapTable)
  | LineNumberTable (line_number_table : LineNumberTable)
  | SourceFile (source_file : SourceFile)
  | Deprecated
  | None

/-- Code attribute payload (attribute/code.rs, `struct CodeAttribute`). -/
inductive CodeAttribute where
  | mk (max_stack max_locals code_length : Nat) (code : List CodeInfo)
       (exception_table : List ExceptionTable) (attributes : List AttributeInfo)

/-- An attribute record (attribute/mod.rs, `struct AttributeInfo`). -/
inductive AttributeInfo where
  | mk (attribute_name_index attribute_length : Nat) (attribute_info : Attribute)
end

def AttributeInfo.attribute_name_index : AttributeInfo → Nat
  | .mk i _ _ => i

def AttributeInfo.attribute_length : AttributeInfo → Nat
  | .mk _ l _ => l

def AttributeInfo.attribute_info : AttributeInfo → Attribute
  | .mk _ _ a => a

/-- `CodeAttribute::parse` (attribute/code.rs, lines 47-75), abstracted
over the attribute-record parser `p` used for the nested attribute list
(the fuel-indexed `AttributeInfo_parse` below ties the knot). -/
def CodeAttribute_parse_with (p : List Nat → Option (AttributeInfo × List Nat))
    (bytes : List Nat) : Option (CodeAttribute × List Nat) :=
  match be_u16 bytes with
  | none => none
  | some (max_stack, bytes) =>
    match be_u16 bytes with
    | none => none
    | some (max_locals, bytes) =>
      match be_u32 bytes with
      | none => none
      | some (code_length, bytes) =>
        match countN be_u8 code_length bytes with
        | none => none
        | some (code, bytes) =>
          match be_u16 bytes with
          | none => none
          | some (exception_table_length, bytes) =>
            match countN ExceptionTable.parse exception_table_length bytes with
            | none => none
            | some (exception_table, bytes) =>
              match be_u16 bytes with
              | none => none
              | some (attribute_count, bytes) =>
                match countN p attribute_count bytes with
                | none => none
                | some (attributes, bytes) =>
                  match parse_code_infos code with
                  | none => none
                  | some code_infos =>
                    some (.mk max_stack max_locals code_length code_infos
                            exception_table attributes, bytes)

/-- `AttributeInfo::parse_attribute` (attribute/mod.rs, lines 87-115):
dispatch on the resolved attribute-name string; any unrecognised name
yields `Attribute::None` without consuming payload bytes. -/
def parse_attribute_with (p : List Nat → Option (AttributeInfo × List Nat))
    (attr_str : List Nat) (bytes : List Nat) : Option (Attribute × List Nat) :=
  if attr_str = CODE_ATTRIBUTE_NAME then
    match CodeAttribute_parse_with p bytes with
    | none => none
    | some (code, bytes) => some (.Code code, bytes)
  else if attr_str = CONSTANT_VALUE_ATTRIBUTE_NAME then
    match ConstantValue.parse bytes with
    | none => none
    | some (constant, bytes) => some (.Constant constant, bytes)
  else if attr_str = STACK_MAP_TABLE_ATTRIBUTE_NAME then
    match StackMapTable.parse bytes with
    | none => none
    | some (stack_map_table, bytes) => some (.StackMapTable stack_map_table, bytes)
  else if attr_str = LINE_NUMBER_TABLE_ATTRIBUTE_NAME then
    match LineNumberTable.parse bytes with
    | none => none
    | some (line_number_table, bytes) => some (.LineNumberTable line_number_table, bytes)
  else if attr_str = SOURCE_FILE_ATTRIBUTE_NAME then
    match SourceFile.parse bytes with
    | none => none
    | some (source_file, bytes) => some (.SourceFile source_file, bytes)
  else if attr_str = DEPRECATED_ATTRIBUTE_NAME then
    some (.Deprecated, bytes)
  else
    some (.None, bytes)

/-- `AttributeInfo::parse` (attribute/mod.rs, lines 51-84): name index,
declared length, exactly `length` payload bytes, then the name is looked
up in the current `CONSTANT_POOL_REF` (here the explicit `cp`).  A zero
name index wraps `usize` and an out-of-range index panics (both `none`);
a non-Utf8 entry yields `Attribute::None`; a payload decoder error aborts
the record.  `fuel` bounds the `Code` nesting depth; each nesting level
operates on a strictly shorter buffer, so `length + 1` fuel always
suffices at top level. -/
def AttributeInfo_parse : Nat → List ConstantPoolInfo → List Nat →
    Option (AttributeInfo × List Nat)
  | 0, _, _ => none
  | fuel + 1, cp, bytes =>
    match be_u16 bytes with
    | none => none
    | some (attribute_name_index, bytes) =>
      match be_u32 bytes with
      | none => none
      | some (attribute_length, bytes) =>
        match countN be_u8 attribute_length bytes with
        | none => none
        | some (info_v, rest) =>
          if attribute_name_index = 0 then none
          else
            match cp.get? (attribute_name_index - 1) with
            | none => none
            | some entry =>
              match entry.as_utf8 with
              | none => some (.mk attribute_name_index attribute_length .None, rest)
              | some attr_str =>
                match parse_attribute_with (AttributeInfo_parse fuel cp) attr_str info_v with
                | none => none
                | some (attr, _) => some (.mk attribute_name_index attribute_length attr, rest)

/-- `parse_attributes` (attribute/mod.rs, lines 44-49): a 2-byte count,
then that many attribute records. -/
def parse_attributes (cp : List ConstantPoolInfo) (bytes : List Nat) :
    Option (List AttributeInfo × List Nat) :=
  match be_u16 bytes with
  | none => none
  | some (attribute_count, rest) =>
    countN (AttributeInfo_parse (bytes.length + 1) cp) attribute_count rest

/-- A field record (filed.rs, `struct FieldInfo`). -/
structure FieldInfo where
  access_flags : AccessFlags
  name_index : Nat
  descriptor_index : Nat
  attributes : List AttributeInfo

/-- `FieldInfo::parse` (filed.rs, lines 18-33); reads the attribute list
through the current constant pool `cp` (the `CONSTANT_POOL_REF` global). -/
def FieldInfo.parse (cp : List ConstantPoolInfo) (bytes : List Nat) :
    Option (FieldInfo × List Nat) :=
  match be_u16 bytes with
  | none => none
  | some (access_flags, bytes) =>
    match be_u16 bytes with
    | none => none
    | some (name_index, bytes) =>
      match be_u16 bytes with
      | none => none
      | some (descriptor_index, bytes) =>
        match parse_attributes cp bytes with
        | none => none
        | some (attributes, bytes) =>
          some (⟨AccessFlags.new_field_flag access_flags, name_index,
                 descriptor_index, attributes⟩, bytes)

/-- A method record (method.rs, `struct MethodInfo`). -/
structure MethodInfo where
  access_flags : AccessFlags
  name_index : Nat
  descriptor_index : Nat
  attributes : List AttributeInfo

/-- `MethodInfo::parse` (method.rs, lines 18-34). -/
def MethodInfo.parse (cp : List ConstantPoolInfo) (bytes : List Nat) :
    Option (MethodInfo × List Nat) :=
  match be_u16 bytes with
  | none => none
  | some (access_flags, bytes) =>
    match be_u16 bytes with
    | none => none
    | some (name_index, bytes) =>
      match be_u16 bytes with
      | none => none
      | some (descriptor_index, bytes) =>
        match parse_attributes cp bytes with
        | none => none
        | some (attributes, bytes) =>
          some (⟨AccessFlags.new_method_flag access_flags, name_index,
                 descriptor_index, attributes⟩, bytes)

/-- The decoded class file (raw_class.rs, `struct ClassFile`). -/
structure ClassFile where
  magic : Nat
  minor_version : Nat
  major_version : Nat
  constant_pool_count : Nat
  constant_pool : List ConstantPoolInfo
  access_flags : AccessFlags
  this_class : Nat
  super_class : Nat
  interfaces : List Nat
  fields : List FieldInfo
  methods : List MethodInfo
  attributes : List AttributeInfo

/-- `ClassFile::parse_fields` (raw_class.rs, lines 52-57). -/
def ClassFile.parse_fields (cp : List ConstantPoolInfo) (bytes : List Nat) :
    Option (List FieldInfo × List Nat) :=
  match be_u16 bytes with
  | none => none
  | some (fields, rest) => countN (FieldInfo.parse cp) fields rest

/-- `ClassFile::parse_methods` (raw_class.rs, lines 59-64). -/
def ClassFile.parse_methods (cp : List ConstantPoolInfo) (bytes : List Nat) :
    Option (List MethodInfo × List Nat) :=
  match be_u16 bytes with
  | none => none
  | some (methods, rest) => countN (MethodInfo.parse cp) methods rest

/-- The first stage of `ClassFile::_parse_from_u8` (raw_class.rs, lines
75-85): header quadruple, magic validation, constant pool.  This is the
prefix up to and including the write of the `CONSTANT_POOL_REF` global. -/
def classfile_header_pool (bytes : List Nat) :
    Option (Nat × Nat × Nat × Nat × List ConstantPoolInfo × List Nat) :=
  match be_u32 bytes with
  | none => none
  | some (magic, bytes) =>
    match be_u16 bytes with
    | none => none
    | some (minor_version, bytes) =>
      match be_u16 bytes with
      | none => none
      | some (major_version, bytes) =>
        match be_u16 bytes with
        | none => none
        | some (constant_pool_count, bytes) =>
          if magic ≠ 0xCAFEBABE then none
          else
            match parse_constant_pool bytes constant_pool_count with
            | none => none
            | some (constant_pool, bytes) =>
              some (magic, minor_version, major_version, constant_pool_count,
                    constant_pool, bytes)

/-- The remainder of `ClassFile::_parse_from_u8` (raw_class.rs, lines
86-112), which resolves every lookup through the just-written
`CONSTANT_POOL_REF` (here the explicit `constant_pool`). -/
def classfile_rest (magic minor_version major_version constant_pool_count : Nat)
    (constant_pool : List ConstantPoolInfo) (bytes : List Nat) : Option ClassFile :=
  match be_u16 bytes with
  | none => none
  | some (access_flags, bytes) =>
    match be_u16 bytes with
    | none => none
    | some (this_class, bytes) =>
      match be_u16 bytes with
      | none => none
      | some (super_class, bytes) =>
        match be_u16 bytes with
        | none => none
        | some (interfaces_count, bytes) =>
          match countN be_u16 interfaces_count bytes with
          | none => none
          | some (interfaces, bytes) =>
            match ClassFile.parse_fields constant_pool bytes with
            | none => none
            | some (fields, bytes) =>
              match ClassFile.parse_methods constant_pool bytes with
              | none => none
              | some (methods, bytes) =>
                match parse_attributes constant_pool bytes with
                | none => none
                | some (attributes, _bytes) =>
                  some ⟨magic, minor_version, major_version, constant_pool_count,
                        constant_pool, AccessFlags.new_class_flag access_flags,
                        this_class, super_class, interfaces, fields, methods,
                        attributes⟩

/-- `ClassFile::_parse_from_u8` (raw_class.rs, lines 72-112) with the
process-wide `CONSTANT_POOL_REF` global (classParser/src/lib.rs, line 21)
made explicit: `g` is the global's content on entry, the first component
of the result is its content on exit.  The global is overwritten with the
current file's pool (raw_class.rs, line 85) as soon as the pool is
decoded, also when a later stage fails. -/
def classfile_decode (g : List ConstantPoolInfo) (bytes : List Nat) :
    List ConstantPoolInfo × Option ClassFile :=
  match classfile_header_pool bytes with
  | none => (g, none)
  | some (magic, minor_version, major_version, constant_pool_count, constant_pool, rest) =>
    (constant_pool,
     classfile_rest magic minor_version major_version constant_pool_count
       constant_pool rest)

end classParser


namespace dexParser

/-- `parse_utf16` (dexParser/src/utf.rs, lines 3-29): one variable-length
(1-4 byte) UTF-8-style code unit, returned as a packed `u32`; a 4-byte
unit is returned as a surrogate pair with the high surrogate in the low 16
bits and the low surrogate in the high 16 bits. -/
def parse_utf16 (bytes : List Nat) : Option (Nat × List Nat) :=
  match be_u8 bytes with
  | none => none
  | some (one, bytes) =>
    if one &&& 0x80 == 0 then some (one, bytes)
    else
      match be_u8 bytes with
      | none => none
      | some (two, bytes) =>
        if one &&& 0x20 == 0 then
          some ((one &&& 0x1f) <<< 6 ||| (two &&& 0x3f), bytes)
        else
          match be_u8 bytes with
          | none => none
          | some (three, bytes) =>
            if one &&& 0x10 == 0 then
              some ((one &&& 0x0f) <<< 12 ||| (two &&& 0x3f) <<< 6 ||| (three &&& 0x3f),
                    bytes)
            else
              match be_u8 bytes with
              | none => none
              | some (four, bytes) =>
                let code_point := (one &&& 0x07) <<< 18 ||| (two &&& 0x3f) <<< 12 |||
                  (three &&& 0x3f) <<< 6 ||| (four &&& 0x3f)
                let surrogate_pair := (((code_point >>> 10) + 0xd7c0) &&& 0xffff) |||
                  (((code_point &&& 0x03ff) + 0xdc00) <<< 16)
                some (surrogate_pair, bytes)

/-- The `while m_bytes[0] != 0` loop of `parse_utf16_str` (utf.rs, lines
31-46); indexing an empty slice panics (`none`).  Each iteration consumes
at least one byte, so `length + 1` fuel is always sufficient. -/
def parse_utf16_str_loop : Nat → List Nat → Option (List Nat × List Nat)
  | 0, _ => none
  | fuel + 1, m_bytes =>
    match m_bytes with
    | [] => none
    | b :: _ =>
      if b % 256 == 0 then some ([], m_bytes)
      else
        match parse_utf16 m_bytes with
        | none => none
        | some (ch, bytes) =>
          let leading := ch &&& 0xffff
          let tailing := ch >>> 16
          match parse_utf16_str_loop fuel bytes with
          | none => none
          | some (res, rest) =>
            some ((if tailing ≠ 0 then leading :: tailing :: res else leading :: res), rest)

/-- `parse_utf16_str` (utf.rs, lines 31-46): decode UTF-16 code units
until a zero byte, which is left unconsumed. -/
def parse_utf16_str (bytes : List Nat) : Option (List Nat × List Nat) :=
  parse_utf16_str_loop (bytes.length + 1) bytes

/-- A string-id entry (raw_dex.rs, `struct StringIdItem`): the absolute
data offset, the declared UTF-16 size read as a varint, and the stored
text.  `string_data` keeps the raw bytes that Rust turns into a `String`
with `from_utf8_unchecked` (raw_dex.rs, line 242). -/
structure StringIdItem where
  string_data_off : Nat
  string_utf16_size : Nat
  string_data : List Nat
deriving DecidableEq

/-- The body of the string-table loop of `DexFile::parse` (raw_dex.rs,
lines 228-244): follow the absolute `string_data_off` into the original
buffer, read a ULEB128 length there, then take that many raw bytes as the
string data.  Rust's range-from slicing panics when the start exceeds the
buffer length, and `count(be_u8, len)` fails on a short buffer. -/
def parse_string_id_item (origin_bytes : List Nat) (string_data_off : Nat) :
    Option StringIdItem :=
  if string_data_off ≤ origin_bytes.length then
    let (string_data_len, data_offset) := parse_uleb128 (origin_bytes.drop string_data_off)
    if string_data_off + data_offset ≤ origin_bytes.length then
      match countN be_u8 string_data_len (origin_bytes.drop (string_data_off + data_offset)) with
      | none => none
      | some (string_data, _) =>
        some ⟨string_data_off, string_data_len, string_data⟩
    else none
  else none

/-- A type-id entry (raw_dex.rs, `struct TypeIdItem`). -/
structure TypeIdItem where
  descriptor_idx : Nat
deriving DecidableEq

instance : Inhabited TypeIdItem := ⟨⟨0⟩⟩

/-- `TypeIdItem::parse` (raw_dex.rs, lines 419-429). -/
def TypeIdItem.parse (bytes : List Nat) : Option (TypeIdItem × List Nat) :=
  match le_u32 bytes with
  | none => none
  | some (descriptor_idx, bytes) => some (⟨descriptor_idx⟩, bytes)

/-- A type list (raw_dex.rs, `struct TypeList`). -/
structure TypeList where
  size : Nat
  list : List TypeIdItem
deriving DecidableEq

/-- `TypeList::parse` (raw_dex.rs, lines 431-446): a count, that many
16-bit type indices, each resolved through the `TYPE_ID_REF` global (here
the explicit `type_id_ref`); an out-of-range index panics. -/
def TypeList.parse (type_id_ref : List TypeIdItem) (bytes : List Nat) :
    Option (TypeList × List Nat) :=
  match le_u32 bytes with
  | none => none
  | some (size, bytes) =>
    match countN le_u16 size bytes with
    | none => none
    | some (list, bytes) =>
      match list.mapM (fun type_idx => type_id_ref.get? type_idx) with
      | none => none
      | some list => some (⟨size, list⟩, bytes)

/-- `TypeList::parse_from_u8` at an absolute offset: the call sites slice
the original buffer (panicking when the offset exceeds its length), parse,
and `unwrap` the result (raw_dex.rs, lines 260-262 and 339-341). -/
def TypeList.parse_from_u8 (type_id_ref : List TypeIdItem) (origin_bytes : List Nat)
    (off : Nat) : Option TypeList :=
  if off ≤ origin_bytes.length then
    match TypeList.parse type_id_ref (origin_bytes.drop off) with
    | none => none
    | some (type_list, _) => some type_list
  else none

/-- A proto-id entry (raw_dex.rs, `struct ProtoIdItem`). -/
structure ProtoIdItem where
  shorty_idx : Nat
  return_type_idx : Nat
  return_type : TypeIdItem
  parameters_off : Nat
  parameters_type_list : Option TypeList
deriving DecidableEq

instance : Inhabited ProtoIdItem := ⟨⟨0, 0, ⟨0⟩, 0, none⟩⟩

/-- A field-id entry (raw_dex.rs, `struct FieldIdItem`). -/
structure FieldIdItem where
  class_idx : Nat
  «class» : TypeIdItem
  type_idx : Nat
  type_item : TypeIdItem
  name_idx : Nat
deriving DecidableEq

instance : Inhabited FieldIdItem := ⟨⟨0, ⟨0⟩, 0, ⟨0⟩, 0⟩⟩

/-- A method-id entry (raw_dex.rs, `struct MethodIdItem`). -/
structure MethodIdItem where
  class_idx : Nat
  «class» : TypeIdItem
  proto_idx : Nat
  proto : ProtoIdItem
  name_idx : Nat
deriving DecidableEq

instance : Inhabited MethodIdItem := ⟨⟨0, ⟨0⟩, 0, default, 0⟩⟩

/-- The dex header (raw_dex.rs, `struct DexHeader`). -/
structure DexHeader where
  magic : Nat
  checksum : Nat
  signature : List Nat
  file_size : Nat
  header_size : Nat
  endian_tag : Nat
  link_size : Nat
  link_off : Nat
  map_off : Nat
  string_ids_size : Nat
  string_ids_off : Nat
  type_ids_size : Nat
  type_ids_off : Nat
  proto_ids_size : Nat
  proto_ids_off : Nat
  field_ids_size : Nat
  field_ids_off : Nat
  method_ids_size : Nat
  method_ids_off : Nat
  class_defs_size : Nat
  class_defs_off : Nat
  data_size : Nat
  data_off : Nat
deriving DecidableEq

def DEX_MAGIC : Nat := 0x6465780a

def NO_INDEX : Nat := 0xffffffff

/-- `DexHeader::parse` (raw_dex.rs, lines 151-213): big-endian magic
(validated against `DEX_MAGIC`), little-endian version and checksum (the
version digits feed only a log line), a 20-byte signature, then the
little-endian size/offset fields. -/
def DexHeader.parse (bytes : List Nat) : Option (DexHeader × List Nat) :=
  match be_u32 bytes with
  | none => none
  | some (magic, bytes) =>
    match le_u32 bytes with
    | none => none
    | some (_version, bytes) =>
      match le_u32 bytes with
      | none => none
      | some (checksum, bytes) =>
        if magic ≠ DEX_MAGIC then none
        else
          match countN be_u8 20 bytes with
          | none => none
          | some (signature, bytes) =>
            match le_u32 bytes with
            | none => none
            | some (file_size, bytes) =>
              match le_u32 bytes with
              | none => none
              | some (header_size, bytes) =>
                match le_u32 bytes with
                | none => none
                | some (endian_tag, bytes) =>
                  match le_u32 bytes with
                  | none => none
                  | some (link_size, bytes) =>
                    match le_u32 bytes with
                    | none => none
                    | some (link_off, bytes) =>
                      match le_u32 bytes with
                      | none => none
                      | some (map_off, bytes) =>
                        match le_u32 bytes with
                        | none => none
                        | some (string_ids_size, bytes) =>
                          match le_u32 bytes with
                          | none => none
                          | some (string_ids_off, bytes) =>
                            match le_u32 bytes with
                            | none => none
                            | some (type_ids_size, bytes) =>
                              match le_u32 bytes with
                              | none => none
                              | some (type_ids_off, bytes) =>
                                match le_u32 bytes with
                                | none => none
                                | some (proto_ids_size, bytes) =>
                                  match le_u32 bytes with
                                  | none => none
                                  | some (proto_ids_off, bytes) =>
                                    match le_u32 bytes with
                                    | none => none
                                    | some (field_ids_size, bytes) =>
                                      match le_u32 bytes with
                                      | none => none
                                      | some (field_ids_off, bytes) =>
                                        match le_u32 bytes with
                                        | none => none
                                        | some (method_ids_size, bytes) =>
                                          match le_u32 bytes with
                                          | none => none
                                          | some (method_ids_off, bytes) =>
                                            match le_u32 bytes with
                                            | none => none
                                            | some (class_defs_size, bytes) =>
                                              match le_u32 bytes with
                                              | none => none
                                              | some (class_defs_off, bytes) =>
                                                match le_u32 bytes with
                                                | none => none
                                                | some (data_size, bytes) =>
                                                  match le_u32 bytes with
                                                  | none => none
                                                  | some (data_off, bytes) =>
                                                    some (⟨magic, checksum, signature,
                                                      file_size, header_size, endian_tag,
                                                      link_size, link_off, map_off,
                                                      string_ids_size, string_ids_off,
                                                      type_ids_size, type_ids_off,
                                                      proto_ids_size, proto_ids_off,
                                                      field_ids_size, field_ids_off,
                                                      method_ids_size, method_ids_off,
                                                      class_defs_size, class_defs_off,
                                                      data_size, data_off⟩, bytes)

/-- A dex code item (class_def.rs, `struct CodeItem`). -/
structure CodeItem where
  registers_size : Nat
  ins_size : Nat
  outs_size : Nat
  tries_size : Nat
  debug_info_off : Nat
  insns_size : Nat
  insns : List Nat
deriving DecidableEq

/-- `CodeItem::parse` (class_def.rs, lines 235-264): fixed-width sizes,
`insns_size` 16-bit code units, and a padding unit when the unit count is
odd and tries are present. -/
def CodeItem.parse (bytes : List Nat) : Option (CodeItem × List Nat) :=
  match le_u16 bytes with
  | none => none
  | some (registers_size, bytes) =>
    match le_u16 bytes with
    | none => none
    | some (ins_size, bytes) =>
      match le_u16 bytes with
      | none => none
      | some (outs_size, bytes) =>
        match le_u16 bytes with
        | none => none
        | some (tries_size, bytes) =>
          match le_u32 bytes with
          | none => none
          | some (debug_info_off, bytes) =>
            match le_u32 bytes with
            | none => none
            | some (insns_size, bytes) =>
              match countN le_u16 insns_size bytes with
              | none => none
              | some (insns, bytes) =>
                if insns_size % 2 = 1 ∧ tries_size > 0 then
                  match le_u16 bytes with
                  | none => none
                  | some (_, bytes) =>
                    some (⟨registers_size, ins_size, outs_size, tries_size,
                           debug_info_off, insns_size, insns⟩, bytes)
                else
                  some (⟨registers_size, ins_size, outs_size, tries_size,
                         debug_info_off, insns_size, insns⟩, bytes)

/-- An encoded field (class_def.rs, `struct EncodedField`). -/
structure EncodedField where
  field_idx_diff : Nat
  access_flags : AccessFlags
  field : FieldIdItem
deriving DecidableEq

/-- `EncodedField::parse` (class_def.rs, lines 132-150): two varints; the
`field` reference starts out as the default item and is filled in by the
class-data loop. -/
def EncodedField.parse (bytes : List Nat) : Option (EncodedField × List Nat) :=
  match parse_uleb128_nom bytes with
  | none => none
  | some (field_idx_diff, bytes) =>
    match parse_uleb128_nom bytes with
    | none => none
    | some (access_flags, bytes) =>
      some (⟨field_idx_diff, AccessFlags.new_field_flag (access_flags % 65536), default⟩,
            bytes)

/-- An encoded method (class_def.rs, `struct EncodedMethod`). -/
structure EncodedMethod where
  method_idx_diff : Nat
  access_flags : AccessFlags
  code_off : Nat
  method : MethodIdItem
  code_item : Option CodeItem
deriving DecidableEq

/-- `EncodedMethod::parse` (class_def.rs, lines 171-191): three varints. -/
def EncodedMethod.parse (bytes : List Nat) : Option (EncodedMethod × List Nat) :=
  match parse_uleb128_nom bytes with
  | none => none
  | some (method_idx_diff, bytes) =>
    match parse_uleb128_nom bytes with
    | none => none
    | some (access_flags, bytes) =>
      match parse_uleb128_nom bytes with
      | none => none
      | some (code_off, bytes) =>
        some (⟨method_idx_diff, AccessFlags.new_method_flag (access_flags % 65536),
               code_off, default, none⟩, bytes)

/-- One of the two field loops of `ClassDataItem::parse` (class_def.rs,
lines 64-70 and 73-79): `cur_offset = field.field_idx_diff + cur_offset`
(`u32` addition, hence `% 2 ^ 32`), then `field.field =
get_field_id(cur_offset)`, a lookup in the `FIELD_ID_REF` global (here
the explicit `field_id_ref`) that panics when out of range. -/
def parse_encoded_fields (field_id_ref : List FieldIdItem) :
    Nat → Nat → List Nat → Option (List EncodedField × List Nat)
  | 0, _, bytes => some ([], bytes)
  | n + 1, cur_offset, bytes =>
    match EncodedField.parse bytes with
    | none => none
    | some (field, rest) =>
      let cur_offset := (field.field_idx_diff + cur_offset) % 2 ^ 32
      match field_id_ref.get? cur_offset with
      | none => none
      | some f =>
        match parse_encoded_fields field_id_ref n cur_offset rest with
        | none => none
        | some (fields, rest') => some ({ field with field := f } :: fields, rest')

/-- One of the two method loops of `ClassDataItem::parse` (class_def.rs,
lines 82-97 and 100-115): diff accumulation and `METHOD_ID_REF` lookup as
for fields, plus, for a non-zero `code_off`, a re-entrant `CodeItem` parse
at that absolute offset of the original buffer (slicing panics when the
offset exceeds the buffer length). -/
def parse_encoded_methods (method_id_ref : List MethodIdItem) (origin_bytes : List Nat) :
    Nat → Nat → List Nat → Option (List EncodedMethod × List Nat)
  | 0, _, bytes => some ([], bytes)
  | n + 1, cur_offset, bytes =>
    match EncodedMethod.parse bytes with
    | none => none
    | some (method, rest) =>
      let cur_offset := (method.method_idx_diff + cur_offset) % 2 ^ 32
      match method_id_ref.get? cur_offset with
      | none => none
      | some m =>
        let code_item? :=
          if method.code_off ≠ 0 then
            if method.code_off ≤ origin_bytes.length then
              match CodeItem.parse (origin_bytes.drop method.code_off) with
              | none => none
              | some (code_item, _) => some (some code_item)
            else none
          else some none
        match code_item? with
        | none => none
        | some code_item =>
          match parse_encoded_methods method_id_ref origin_bytes n cur_offset rest with
          | none => none
          | some (methods, rest') =>
            some ({ method with method := m, code_item := code_item } :: methods, rest')

/-- The class-data record (class_def.rs, `struct ClassDataItem`). -/
structure ClassDataItem where
  static_fields : List EncodedField
  instance_fields : List EncodedField
  direct_methods : List EncodedMethod
  virtual_methods : List EncodedMethod
deriving DecidableEq

/-- `ClassDataItem::parse` (class_def.rs, lines 48-123): four varint
sizes, then the four diff-encoded lists, each with its accumulator reset
to zero. -/
def ClassDataItem.parse (field_id_ref : List FieldIdItem)
    (method_id_ref : List MethodIdItem) (bytes origin_bytes : List Nat) :
    Option (ClassDataItem × List Nat) :=
  match parse_uleb128_nom bytes with
  | none => none
  | some (static_fields_size, bytes) =>
    match parse_uleb128_nom bytes with
    | none => none
    | some (instance_fields_size, bytes) =>
      match parse_uleb128_nom bytes with
      | none => none
      | some (direct_methods_size, bytes) =>
        match parse_uleb128_nom bytes with
        | none => none
        | some (virtual_methods_size, bytes) =>
          match parse_encoded_fields field_id_ref static_fields_size 0 bytes with
          | none => none
          | some (static_fields, bytes) =>
            match parse_encoded_fields field_id_ref instance_fields_size 0 bytes with
            | none => none
            | some (instance_fields, bytes) =>
              match parse_encoded_methods method_id_ref origin_bytes
                  direct_methods_size 0 bytes with
              | none => none
              | some (direct_methods, bytes) =>
                match parse_encoded_methods method_id_ref origin_bytes
                    virtual_methods_size 0 bytes with
                | none => none
                | some (virtual_methods, bytes) =>
                  some (⟨static_fields, instance_fields, direct_methods,
                         virtual_methods⟩, bytes)

/-- `ClassDataItem::parse_from_u8` (class_def.rs, lines 42-46), as used at
its call sites (raw_dex.rs, lines 344-350): slice the original buffer at
the class-data offset (panicking when out of range) and `unwrap`. -/
def ClassDataItem.parse_from_u8 (field_id_ref : List FieldIdItem)
    (method_id_ref : List MethodIdItem) (origin_bytes : List Nat) (off : Nat) :
    Option ClassDataItem :=
  if off ≤ origin_bytes.length then
    match ClassDataItem.parse field_id_ref method_id_ref (origin_bytes.drop off)
        origin_bytes with
    | none => none
    | some (class_data_item, _) => some class_data_item
  else none

/-- A class definition (class_def.rs, `struct ClassDefItem`). -/
structure ClassDefItem where
  class_idx : Nat
  «class» : TypeIdItem
  access_flags : AccessFlags
  superclass_idx : Nat
  superclass : Option TypeIdItem
  interfaces_off : Nat
  interfaces : Option TypeList
  source_file_idx : Option Nat
  annotations_off : Nat
  class_data_off : Nat
  static_values_off : Nat
  class_data_item : Option ClassDataItem
deriving DecidableEq

/-- The decoded dex file (raw_dex.rs, `struct DexFile`); `call_site_ids`
and `method_handles` are never parsed and keep their `Default` value. -/
structure DexFile where
  dex_header : DexHeader
  string_ids : List StringIdItem
  type_ids : List TypeIdItem
  proto_ids : List ProtoIdItem
  field_ids : List FieldIdItem
  method_ids : List MethodIdItem
  class_defs : List ClassDefItem
deriving DecidableEq

/-- The four process-wide mutable tables of dexParser/src/lib.rs, lines
15-18 (`static mut STRING_DATA_REF / TYPE_ID_REF / METHOD_ID_REF /
FIELD_ID_REF`), made explicit. -/
structure DexGlobals where
  string_data_ref : List StringIdItem
  type_id_ref : List TypeIdItem
  method_id_ref : List MethodIdItem
  field_id_ref : List FieldIdItem
deriving DecidableEq

/-- Stage one of `DexFile::parse` (raw_dex.rs, lines 223-248): header,
string-id offsets with their resolved string data, and the type-id table —
everything up to the writes of `STRING_DATA_REF` and `TYPE_ID_REF`. -/
def dex_stage1 (origin_bytes : List Nat) :
    Option (DexHeader × List StringIdItem × List TypeIdItem × List Nat) :=
  match DexHeader.parse origin_bytes with
  | none => none
  | some (dex_header, bytes) =>
    match countN le_u32 dex_header.string_ids_size bytes with
    | none => none
    | some (string_ids, bytes) =>
      match string_ids.mapM (parse_string_id_item origin_bytes) with
      | none => none
      | some (string_id_items) =>
        match countN TypeIdItem.parse dex_header.type_ids_size bytes with
        | none => none
        | some (type_ids, bytes) =>
          some (dex_header, string_id_items, type_ids, bytes)

/-- Stage two of `DexFile::parse` (raw_dex.rs, lines 250-307): proto,
field and method id tables, each resolved against the earlier tables, and
the raw class-def tuples — everything up to the writes of `FIELD_ID_REF`
and `METHOD_ID_REF`.  A table lookup out of range or a failing `unwrap`
panics (`none`). -/
def dex_stage2 (origin_bytes : List Nat) (dex_header : DexHeader)
    (type_ids : List TypeIdItem) (bytes : List Nat) :
    Option (List ProtoIdItem × List FieldIdItem × List MethodIdItem ×
            List (Nat × Nat × Nat × Nat × Nat × Nat × Nat × Nat) × List Nat) :=
  match countN (fun bs =>
      match le_u32 bs with
      | none => none
      | some (shorty_idx, bs) =>
        match le_u32 bs with
        | none => none
        | some (return_type_idx, bs) =>
          match le_u32 bs with
          | none => none
          | some (parameters_off, bs) => some ((shorty_idx, return_type_idx, parameters_off), bs))
      dex_header.proto_ids_size bytes with
  | none => none
  | some (proto_triples, bytes) =>
    match proto_triples.mapM (fun t =>
        let (shorty_idx, return_type_idx, parameters_off) := t
        match (if parameters_off = 0 then some none
               else match TypeList.parse_from_u8 type_ids origin_bytes parameters_off with
                    | none => none
                    | some tl => some (some tl)) with
        | none => none
        | some parameters =>
          match type_ids.get? return_type_idx with
          | none => none
          | some return_type =>
            some (⟨shorty_idx, return_type_idx, return_type, parameters_off,
                   parameters⟩ : ProtoIdItem)) with
    | none => none
    | some proto_ids =>
      match countN (fun bs =>
          match le_u16 bs with
          | none => none
          | some (class_idx, bs) =>
            match le_u16 bs with
            | none => none
            | some (type_idx, bs) =>
              match le_u32 bs with
              | none => none
              | some (name_idx, bs) => some ((class_idx, type_idx, name_idx), bs))
          dex_header.field_ids_size bytes with
      | none => none
      | some (field_triples, bytes) =>
        match field_triples.mapM (fun t =>
            let (class_idx, type_idx, name_idx) := t
            match type_ids.get? class_idx with
            | none => none
            | some cls =>
              match type_ids.get? type_idx with
              | none => none
              | some type_item =>
                some (⟨class_idx, cls, type_idx, type_item, name_idx⟩ : FieldIdItem)) with
        | none => none
        | some field_ids =>
          match countN (fun bs =>
              match le_u16 bs with
              | none => none
              | some (class_idx, bs) =>
                match le_u16 bs with
                | none => none
                | some (proto_idx, bs) =>
                  match le_u32 bs with
                  | none => none
                  | some (name_idx, bs) => some ((class_idx, proto_idx, name_idx), bs))
              dex_header.method_ids_size bytes with
          | none => none
          | some (method_triples, bytes) =>
            match method_triples.mapM (fun t =>
                let (class_idx, proto_idx, name_idx) := t
                match type_ids.get? class_idx with
                | none => none
                | some cls =>
                  match proto_ids.get? proto_idx with
                  | none => none
                  | some proto =>
                    some (⟨class_idx, cls, proto_idx, proto, name_idx⟩ : MethodIdItem)) with
            | none => none
            | some method_ids =>
              match countN (fun bs =>
                  match le_u32 bs with
                  | none => none
                  | some (a, bs) =>
                    match le_u32 bs with
                    | none => none
                    | some (b, bs) =>
                      match le_u32 bs with
                      | none => none
                      | some (c, bs) =>
                        match le_u32 bs with
                        | none => none
                        | some (d, bs) =>
                          match le_u32 bs with
                          | none => none
                          | some (e, bs) =>
                            match le_u32 bs with
                            | none => none
                            | some (f, bs) =>
                              match le_u32 bs with
                              | none => none
                              | some (g, bs) =>
                                match le_u32 bs with
                                | none => none
                                | some (h, bs) =>
                                  some ((a, b, c, d, e, f, g, h), bs))
                  dex_header.class_defs_size bytes with
              | none => none
              | some (class_def_tuples, bytes) =>
                some (proto_ids, field_ids, method_ids, class_def_tuples, bytes)

/-- Stage three of `DexFile::parse` (raw_dex.rs, lines 313-367): resolve
each raw class-def tuple into a `ClassDefItem`, following the interfaces
and class-data offsets into the original buffer. -/
def dex_stage3 (origin_bytes : List Nat) (type_ids : List TypeIdItem)
    (field_ids : List FieldIdItem) (method_ids : List MethodIdItem)
    (class_def_tuples : List (Nat × Nat × Nat × Nat × Nat × Nat × Nat × Nat)) :
    Option (List ClassDefItem) :=
  class_def_tuples.mapM (fun t =>
    let (class_idx, access_flags, superclass_idx, interfaces_off, source_file_idx,
         annotations_off, class_data_off, static_values_off) := t
    match (if superclass_idx = NO_INDEX then some none
           else match type_ids.get? superclass_idx with
                | none => none
                | some s => some (some s)) with
    | none => none
    | some superclass =>
      let source_file_idx := if source_file_idx = NO_INDEX then none else some source_file_idx
      match (if interfaces_off = 0 then some none
             else match TypeList.parse_from_u8 type_ids origin_bytes interfaces_off with
                  | none => none
                  | some tl => some (some tl)) with
      | none => none
      | some interfaces =>
        match (if class_data_off = 0 then some none
               else match ClassDataItem.parse_from_u8 field_ids method_ids origin_bytes
                        class_data_off with
                    | none => none
                    | some cdi => some (some cdi)) with
        | none => none
        | some class_data_item =>
          match type_ids.get? class_idx with
          | none => none
          | some cls =>
            some (⟨class_idx, cls, AccessFlags.new_class_flag (access_flags % 65536),
                   superclass_idx, superclass, interfaces_off, interfaces,
                   source_file_idx, annotations_off, class_data_off, static_values_off,
                   class_data_item⟩ : ClassDefItem))

/-- `DexFile::parse` (raw_dex.rs, lines 216-387) with the four
process-wide globals of dexParser/src/lib.rs made explicit: `g` is their
content on entry, the first component of the result their content on
exit.  `STRING_DATA_REF`/`TYPE_ID_REF` are written after the type table is
read (lines 247-248), `FIELD_ID_REF`/`METHOD_ID_REF` after the raw
class-def tuples are read (lines 310-311); every later lookup resolves
against the current file's freshly written tables. -/
def dex_decode (g : DexGlobals) (origin_bytes : List Nat) : DexGlobals × Option DexFile :=
  match dex_stage1 origin_bytes with
  | none => (g, none)
  | some (dex_header, string_id_items, type_ids, bytes) =>
    let g1 : DexGlobals := { g with string_data_ref := string_id_items,
                                    type_id_ref := type_ids }
    match dex_stage2 origin_bytes dex_header type_ids bytes with
    | none => (g1, none)
    | some (proto_ids, field_ids, method_ids, class_def_tuples, _bytes) =>
      let g2 : DexGlobals := { g1 with field_id_ref := field_ids,
                                       method_id_ref := method_ids }
      match dex_stage3 origin_bytes type_ids field_ids method_ids class_def_tuples with
      | none => (g2, none)
      | some class_defs =>
        (g2, some ⟨dex_header, string_id_items, type_ids, proto_ids, field_ids,
                   method_ids, class_defs⟩)

end dexParser

/-! ## Shared helper lemmas -/

theorem and_127_eq_mod (x : Nat) : x &&& 127 = x % 128 := by
  have h := Nat.and_pow_two_sub_one_eq_mod x 7
  norm_num at h
  exact h

theorem and_128_eq_zero_of_lt {x : Nat} (h : x < 128) : x &&& 128 = 0 := by
  have h2 := Nat.and_two_pow x 7
  have hb : x.testBit 7 = false := Nat.testBit_lt_two_pow (by norm_num [h])
  norm_num [hb] at h2
  exact h2

theorem and_128_of_add {a : Nat} (h : a < 128) : (a + 128) &&& 128 = 128 := by
  have h2 := Nat.and_two_pow (a + 128) 7
  have hb : (a + 128).testBit 7 = true := by
    have h3 := Nat.testBit_two_pow_add_eq a 7
    norm_num at h3
    have hb0 : a.testBit 7 = false := Nat.testBit_lt_two_pow (by norm_num [h])
    rw [Nat.add_comm]
    simpa [hb0] using h3
  norm_num [hb] at h2
  exact h2

theorem lor_shiftLeft_eq_add {acc v shift : Nat} (h : acc < 2 ^ shift) :
    acc ||| (v <<< shift) = acc + v * 2 ^ shift := by
  rw [Nat.shiftLeft_eq, Nat.lor_comm, Nat.mul_comm v (2 ^ shift),
    ← Nat.mul_add_lt_is_or h, Nat.add_comm]

/-! ## Claim C4 -/

/-- Claim C4 (code_bug evidence): the ULEB128 decoder does not cap the
accumulated shift and does not fail beyond 5 bytes for a 32-bit value.  On
the 6-byte encoding `80 80 80 80 80 01` it returns a value — `(8, 6)`
under release-mode shift masking (a debug build panics on the shift
overflow instead) — with 6 bytes consumed, instead of a decoding error;
`parse_uleb128` has no error return at all. -/
theorem claim_C4 :
    dexParser.parse_uleb128 [0x80, 0x80, 0x80, 0x80, 0x80, 0x01] = (8, 6) := by
  decide

/-! ## Claim C9 -/

namespace dexParser

theorem encode_uleb128_fuel_ne_nil {fuel v : Nat} (h : 0 < fuel) :
    encode_uleb128_fuel fuel v ≠ [] := by
  cases fuel with
  | zero => omega
  | succ f =>
    unfold encode_uleb128_fuel
    split <;> simp

theorem parse_uleb128_loop_encode (fuel : Nat) :
    ∀ v acc shift i, 0 < fuel → v < 2 ^ (7 * fuel) → v < 2 ^ (32 - shift) →
    shift < 32 → acc < 2 ^ shift →
    parse_uleb128_loop (encode_uleb128_fuel fuel v) acc shift i =
      (acc + v * 2 ^ shift, i + (encode_uleb128_fuel fuel v).length - 1) := by
  induction fuel with
  | zero => intro v acc shift i h0; omega
  | succ f ih =>
    intro v acc shift i _ hv hv32 hshift hacc
    unfold encode_uleb128_fuel
    by_cases hsmall : v < 128
    · simp only [if_pos hsmall]
      unfold parse_uleb128_loop
      have hm256 : v % 256 = v := Nat.mod_eq_of_lt (by omega)
      have hm32 : shift % 32 = shift := Nat.mod_eq_of_lt hshift
      have hand : v &&& 127 = v := by
        rw [and_127_eq_mod]; exact Nat.mod_eq_of_lt hsmall
      have hstop : v &&& 128 = 0 := and_128_eq_zero_of_lt hsmall
      have hlt : acc + v * 2 ^ shift < 2 ^ 32 := by
        have h1 : v * 2 ^ shift ≤ (2 ^ (32 - shift) - 1) * 2 ^ shift :=
          Nat.mul_le_mul_right _ (by omega)
        have h2 : (2 ^ (32 - shift) - 1) * 2 ^ shift = 2 ^ 32 - 2 ^ shift := by
          rw [Nat.sub_mul, one_mul, ← Nat.pow_add]
          congr 2
          omega
        have h3 : (2 : Nat) ^ shift ≤ 2 ^ 32 := Nat.pow_le_pow_right (by omega) (by omega)
        omega
      simp only [hm256, hm32]
      norm_num [hand, hstop]
      rw [lor_shiftLeft_eq_add hacc]
      omega
    · simp only [if_neg hsmall]
      unfold parse_uleb128_loop
      have hmod128 : v % 128 < 128 := Nat.mod_lt v (by omega)
      have hb256 : (v % 128 + 128) % 256 = v % 128 + 128 := Nat.mod_eq_of_lt (by omega)
      have hm32 : shift % 32 = shift := Nat.mod_eq_of_lt hshift
      have hand : (v % 128 + 128) &&& 127 = v % 128 := by
        rw [and_127_eq_mod]
        omega
      have hcont : (v % 128 + 128) &&& 128 = 128 := and_128_of_add hmod128
      have hshift25 : shift < 25 := by
        by_contra hge
        have h1 : (2 : Nat) ^ (32 - shift) ≤ 2 ^ 7 :=
          Nat.pow_le_pow_right (by omega) (by omega)
        norm_num at h1
        omega
      have hacc' : acc + v % 128 * 2 ^ shift < 2 ^ (shift + 7) := by
        have h2 : v % 128 * 2 ^ shift ≤ 127 * 2 ^ shift :=
          Nat.mul_le_mul_right _ (by omega)
        have h3 : (2 : Nat) ^ (shift + 7) = 2 ^ shift * 128 := by
          rw [Nat.pow_add]
        omega
      have hltsmall : acc + v % 128 * 2 ^ shift < 2 ^ 32 := by
        have h4 : (2 : Nat) ^ (shift + 7) ≤ 2 ^ 32 := Nat.pow_le_pow_right (by omega) (by omega)
        omega
      have hf0 : 0 < f := by
        rcases Nat.eq_zero_or_pos f with hf | hf
        · subst hf
          norm_num at hv
          omega
        · exact hf
      have hvdiv : v / 128 < 2 ^ (7 * f) := by
        have h1 : v < 2 ^ (7 * f) * 128 := by
          have h5 : 7 * (f + 1) = 7 * f + 7 := by ring
          rw [h5, Nat.pow_add] at hv
          norm_num at hv
          exact hv
        omega
      have hvdiv32 : v / 128 < 2 ^ (32 - (shift + 7)) := by
        have h1 : v < 2 ^ (32 - (shift + 7)) * 128 := by
          have h2 : 32 - shift = (32 - (shift + 7)) + 7 := by omega
          rw [h2, Nat.pow_add] at hv32
          norm_num at hv32
          exact hv32
        omega
      simp only [hb256, hm32]
      norm_num [hand, hcont]
      rw [lor_shiftLeft_eq_add hacc]
      have hmodid : (acc + v % 128 * 2 ^ shift) % 4294967296 = acc + v % 128 * 2 ^ shift := by
        omega
      rw [hmodid]
      rw [ih (v / 128) _ (shift + 7) (i + 1) hf0 hvdiv hvdiv32 (by omega) hacc']
      have hne := @encode_uleb128_fuel_ne_nil f (v / 128) hf0
      have hlen : 0 < (encode_uleb128_fuel f (v / 128)).length :=
        List.length_pos.mpr hne
      rw [Prod.mk.injEq]
      refine ⟨?_, ?_⟩
      · have h3 : (2 : Nat) ^ (shift + 7) = 2 ^ shift * 128 := by
          rw [Nat.pow_add]
        rw [h3]
        have h4 : v % 128 * 2 ^ shift + v / 128 * (2 ^ shift * 128) = v * 2 ^ shift := by
          have h5 : v % 128 * 2 ^ shift + v / 128 * (2 ^ shift * 128) =
              (v % 128 + v / 128 * 128) * 2 ^ shift := by ring
          rw [h5, Nat.mod_add_div']
        omega
      · omega

end dexParser

/-- Claim C9: for every unsigned 32-bit value `v`, decoding the minimal
ULEB128 encoding of `v` returns the pair of `v` and the exact length of
that encoding. -/
theorem claim_C9 (v : Nat) (h : v < 2 ^ 32) :
    dexParser.parse_uleb128 (dexParser.encode_uleb128 v) =
      (v, (dexParser.encode_uleb128 v).length) := by
  unfold dexParser.parse_uleb128 dexParser.encode_uleb128
  have h35 : v < 2 ^ (7 * 5) := by
    have : (2 : Nat) ^ 32 ≤ 2 ^ 35 := Nat.pow_le_pow_right (by omega) (by omega)
    norm_num
    omega
  rw [dexParser.parse_uleb128_loop_encode 5 v 0 0 1 (by omega) h35
    (by simpa using h) (by omega) (by norm_num)]
  have hne := @dexParser.encode_uleb128_fuel_ne_nil 5 v (by omega)
  have hlen : 0 < (dexParser.encode_uleb128_fuel 5 v).length := List.length_pos.mpr hne
  rw [Prod.mk.injEq]
  refine ⟨by norm_num, by omega⟩

/-- Witness for claim C9 at `v = 300` (a two-byte encoding). -/
theorem claim_C9_witness :
    300 < 2 ^ 32 ∧
    dexParser.parse_uleb128 (dexParser.encode_uleb128 300) =
      (300, (dexParser.encode_uleb128 300).length) :=
  ⟨by decide, claim_C9 300 (by decide)⟩

/-! ## Claims C2 and C10: constant-pool structure -/

namespace classParser

theorem new_empty_not_double : ConstantPoolInfo.new_empty.is_double_size = false := rfl

theorem parse_constant_pool_loop_empty_after_double :
    ∀ fuel n bytes pool rest,
    parse_constant_pool_loop fuel n bytes = some (pool, rest) →
    ∀ i e, pool.get? i = some e → e.is_double_size = true →
    pool.get? (i + 1) = some ConstantPoolInfo.new_empty := by
  intro fuel
  induction fuel with
  | zero =>
    intro n bytes pool rest h
    simp [parse_constant_pool_loop] at h
  | succ f ih =>
    intro n bytes pool rest h i e hget hd
    cases n with
    | zero =>
      simp [parse_constant_pool_loop] at h
      rw [h.1] at hget
      simp at hget
    | succ m =>
      simp only [parse_constant_pool_loop] at h
      split at h
      · exact absurd h (by simp)
      rename_i info rest0 hp
      split at h
      · rename_i hdouble
        split at h
        · exact absurd h (by simp)
        rename_i pool' rest' hrec
        rw [Option.some.injEq, Prod.mk.injEq] at h
        obtain ⟨hpool, -⟩ := h
        subst hpool
        match i, hget with
        | 0, hget => simp [List.get?]
        | 1, hget =>
          rw [List.get?] at hget
          simp [List.get?] at hget
          rw [← hget] at hd
          simp [new_empty_not_double] at hd
        | (k + 2), hget =>
          have hget' : pool'.get? k = some e := hget
          exact ih _ _ _ _ hrec k e hget' hd
      · rename_i hsingle
        split at h
        · exact absurd h (by simp)
        rename_i pool' rest' hrec
        rw [Option.some.injEq, Prod.mk.injEq] at h
        obtain ⟨hpool, -⟩ := h
        subst hpool
        match i, hget with
        | 0, hget =>
          simp [List.get?] at hget
          rw [← hget] at hd
          simp [hd] at hsingle
        | (k + 1), hget =>
          have hget' : pool'.get? k = some e := hget
          exact ih _ _ _ _ hrec k e hget' hd

theorem parse_constant_pool_loop_length_mod :
    ∀ fuel n bytes pool rest,
    parse_constant_pool_loop fuel n bytes = some (pool, rest) →
    pool.length % 65536 = n % 65536 := by
  intro fuel
  induction fuel with
  | zero =>
    intro n bytes pool rest h
    simp [parse_constant_pool_loop] at h
  | succ f ih =>
    intro n bytes pool rest h
    cases n with
    | zero =>
      simp [parse_constant_pool_loop] at h
      rw [h.1]
      simp
    | succ m =>
      simp only [parse_constant_pool_loop] at h
      split at h
      · exact absurd h (by simp)
      rename_i info rest0 hp
      split at h
      · split at h
        · exact absurd h (by simp)
        rename_i pool' rest' hrec
        rw [Option.some.injEq, Prod.mk.injEq] at h
        obtain ⟨hpool, -⟩ := h
        subst hpool
        have hlen := ih _ _ _ _ hrec
        simp only [List.length_cons]
        omega
      · split at h
        · exact absurd h (by simp)
        rename_i pool' rest' hrec
        rw [Option.some.injEq, Prod.mk.injEq] at h
        obtain ⟨hpool, -⟩ := h
        subst hpool
        have hlen := ih _ _ _ _ hrec
        simp only [List.length_cons]
        omega

theorem classfile_rest_fields {magic minor major cnt pool bytes cf}
    (h : classfile_rest magic minor major cnt pool bytes = some cf) :
    cf.constant_pool = pool ∧ cf.constant_pool_count = cnt := by
  unfold classfile_rest at h
  repeat' split at h
  all_goals first
    | (rw [Option.some.injEq] at h
       rw [← h]
       exact ⟨rfl, rfl⟩)
    | simp_all

theorem classfile_header_pool_spec {bytes m mi ma cnt pool rest}
    (h : classfile_header_pool bytes = some (m, mi, ma, cnt, pool, rest)) :
    ∃ pb, parse_constant_pool pb cnt = some (pool, rest) := by
  unfold classfile_header_pool at h
  split at h
  · simp at h
  rename_i magic' bytes1 hb1
  split at h
  · simp at h
  rename_i minor' bytes2 hb2
  split at h
  · simp at h
  rename_i major' bytes3 hb3
  split at h
  · simp at h
  rename_i cnt' bytes4 hb4
  split at h
  · simp at h
  rename_i hmagic
  split at h
  · simp at h
  rename_i pool' rest' hpp
  simp only [Option.some.injEq, Prod.mk.injEq] at h
  obtain ⟨-, -, -, hcnt, hpool, hrest⟩ := h
  subst hcnt
  rw [← hpool, ← hrest]
  exact ⟨bytes4, hpp⟩

end classParser

/-- Claim C2: in every successfully decoded class file, a Long or Double
constant-pool entry (a double-size slot) is immediately followed by the
`Empty` placeholder, so the next real entry sits two logical indices
later and 1-based index lookups remain correct. -/
theorem claim_C2 (g : List classParser.ConstantPoolInfo) (bytes : List Nat)
    (cf : classParser.ClassFile)
    (h : (classParser.classfile_decode g bytes).2 = some cf)
    (i : Nat) (e : classParser.ConstantPoolInfo)
    (hget : cf.constant_pool.get? i = some e)
    (hd : e.is_double_size = true) :
    cf.constant_pool.get? (i + 1) = some classParser.ConstantPoolInfo.new_empty := by
  unfold classParser.classfile_decode at h
  split at h
  · simp at h
  rename_i m mi ma cnt pool rest hhp
  simp only at h
  obtain ⟨hpool, -⟩ := classParser.classfile_rest_fields h
  obtain ⟨pb, hp⟩ := classParser.classfile_header_pool_spec hhp
  rw [hpool] at hget ⊢
  exact classParser.parse_constant_pool_loop_empty_after_double _ _ _ _ _ hp i e hget hd

/-- Witness input for claim C2: a class file whose pool holds one Long
constant (count field 3), followed by empty interface/field/method/
attribute sections. -/
def C2_wbytes : List Nat :=
  [0xCA, 0xFE, 0xBA, 0xBE, 0, 0, 0, 0, 0, 3, 5, 0, 0, 0, 0, 0, 0, 0, 1,
   0, 0, 0, 0, 0, 0, 0, 0, 0, 0, 0, 0, 0, 0]

/-- The class file decoded from `C2_wbytes`. -/
def C2_wcf : classParser.ClassFile :=
  ((classParser.classfile_decode [] C2_wbytes).2).get (by decide)

/-- Witness for claim C2: in the decoded `C2_wbytes`, the Long entry at
0-based slot 0 is followed by the Empty placeholder at slot 1. -/
theorem claim_C2_witness :
    C2_wcf.constant_pool.get? 0 = some ⟨5, .Long 1⟩ ∧
    (⟨5, .Long 1⟩ : classParser.ConstantPoolInfo).is_double_size = true ∧
    C2_wcf.constant_pool.get? 1 = some classParser.ConstantPoolInfo.new_empty :=
  ⟨by decide, by decide,
   claim_C2 [] C2_wbytes C2_wcf ((Option.some_get _).symm) 0 ⟨5, .Long 1⟩
     (by decide) (by decide)⟩

/-- Claim C10 (amended): on a successful decode, the number of stored
constant-pool slots is congruent to `constant_pool_count - 1` (wrapping
16-bit subtraction) modulo 2^16 — equality can fail when the remaining
count wraps inside the loop (see the counterexample) — and a count field
of 0 never yields an empty pool (the counter wraps to 65535). -/
theorem claim_C10 (g : List classParser.ConstantPoolInfo) (bytes : List Nat)
    (cf : classParser.ClassFile)
    (h : (classParser.classfile_decode g bytes).2 = some cf) :
    cf.constant_pool.length % 65536 = (cf.constant_pool_count + 65535) % 65536 ∧
    (cf.constant_pool_count = 0 → cf.constant_pool ≠ []) := by
  unfold classParser.classfile_decode at h
  split at h
  · simp at h
  rename_i m mi ma cnt pool rest hhp
  simp only at h
  obtain ⟨hpool, hcnt⟩ := classParser.classfile_rest_fields h
  obtain ⟨pb, hp⟩ := classParser.classfile_header_pool_spec hhp
  unfold classParser.parse_constant_pool at hp
  have hlen := classParser.parse_constant_pool_loop_length_mod _ _ _ _ _ hp
  constructor
  · rw [hpool, hcnt, hlen]
    omega
  · intro h0 hnil
    rw [hcnt] at h0
    rw [hpool] at hnil
    rw [hnil] at hlen
    rw [h0] at hlen
    simp at hlen

/-- Witness input for claim C10: a minimal class file with count field 2
and a single Integer constant. -/
def C10_wbytes : List Nat :=
  [0xCA, 0xFE, 0xBA, 0xBE, 0, 0, 0, 0, 0, 2, 3, 0, 0, 0, 7,
   0, 0, 0, 0, 0, 0, 0, 0, 0, 0, 0, 0, 0, 0]

/-- The class file decoded from `C10_wbytes`. -/
def C10_wcf : classParser.ClassFile :=
  ((classParser.classfile_decode [] C10_wbytes).2).get (by decide)

/-- Witness for claim C10 on `C10_wbytes` (count 2, one slot stored). -/
theorem claim_C10_witness :
    C10_wcf.constant_pool.length % 65536 =
      (C10_wcf.constant_pool_count + 65535) % 65536 ∧
    (C10_wcf.constant_pool_count = 0 → C10_wcf.constant_pool ≠ []) :=
  claim_C10 [] C10_wbytes C10_wcf ((Option.some_get _).symm)

namespace classParser

theorem parse_constant_pool_loop_replicate_tag2 :
    ∀ n fuel tail, n < fuel → n < 65536 →
    parse_constant_pool_loop fuel n (List.replicate n 2 ++ tail) =
      some (List.replicate n ⟨1, .Utf8 []⟩, tail) := by
  intro n
  induction n with
  | zero =>
    intro fuel tail hf _
    cases fuel with
    | zero => omega
    | succ f => simp [parse_constant_pool_loop]
  | succ m ih =>
    intro fuel tail hf h65
    cases fuel with
    | zero => omega
    | succ f =>
      rw [List.replicate_succ, List.cons_append]
      have hp : ConstantPoolInfo.parse (2 :: (List.replicate m 2 ++ tail)) =
          some (⟨1, .Utf8 []⟩, List.replicate m 2 ++ tail) := by
        simp [ConstantPoolInfo.parse, ConstantType.parse, be_u8, ConstantType.value]
      simp only [parse_constant_pool_loop, hp]
      have hd : (⟨1, .Utf8 []⟩ : ConstantPoolInfo).is_double_size = false := rfl
      simp only [hd, Bool.false_eq_true, if_false]
      rw [Nat.mod_eq_of_lt (by omega)]
      rw [ih f tail (by omega) (by omega)]
      rw [List.replicate_succ]

end classParser

namespace classParser

/-- Evaluation of `classfile_header_pool` on a header with magic
`0xCAFEBABE`, version 0.0 and constant-pool count 2, for an arbitrary
pool region. -/
theorem classfile_header_pool_build (pbytes : List Nat)
    (pool : List ConstantPoolInfo) (rest : List Nat)
    (hp : parse_constant_pool pbytes 2 = some (pool, rest)) :
    classfile_header_pool (0xCA :: 0xFE :: 0xBA :: 0xBE :: 0 :: 0 :: 0 :: 0 :: 0 :: 2 ::
        pbytes) = some (0xCAFEBABE, 0, 0, 2, pool, rest) := by
  unfold classfile_header_pool
  simp only [be_u32, be_u16, be_u8, Nat.reduceMod, Nat.reduceMul, Nat.reduceAdd,
    ne_eq, reduceIte]
  rw [hp]
  simp only [not_true, reduceIte]

/-- Composition of the two stages of `classfile_decode` on success. -/
theorem classfile_decode_build (g : List ConstantPoolInfo) (bytes : List Nat)
    (m mi ma cnt : Nat) (pool : List ConstantPoolInfo) (rest : List Nat)
    (cf : ClassFile)
    (hh : classfile_header_pool bytes = some (m, mi, ma, cnt, pool, rest))
    (hr : classfile_rest m mi ma cnt pool rest = some cf) :
    (classfile_decode g bytes).2 = some cf := by
  unfold classfile_decode
  rw [hh]
  exact hr

/-- Evaluation of `classfile_rest` on the 14 zero bytes that encode empty
access-flag/this/super fields and empty interface, field, method and
attribute sections. -/
theorem classfile_rest_zero_tail (m mi ma cnt : Nat) (pool : List ConstantPoolInfo) :
    classfile_rest m mi ma cnt pool [0, 0, 0, 0, 0, 0, 0, 0, 0, 0, 0, 0, 0, 0] =
      some ⟨m, mi, ma, cnt, pool, AccessFlags.new_class_flag 0, 0, 0, [], [], [], []⟩ :=
  rfl

end classParser

/-- Counterexample input for claim C10: count field 2 (one logical slot),
but the first entry is a Long, so the remaining count wraps from 1 to
65535 and the decoder goes on to read 65535 further one-byte unknown-tag
entries, storing 65537 slots in total. -/
def C10_cexBytes : List Nat :=
  0xCA :: 0xFE :: 0xBA :: 0xBE :: 0 :: 0 :: 0 :: 0 :: 0 :: 2 ::
  5 :: 0 :: 0 :: 0 :: 0 :: 0 :: 0 :: 0 :: 1 ::
  (List.replicate 65535 2 ++ [0, 0, 0, 0, 0, 0, 0, 0, 0, 0, 0, 0, 0, 0])

/-- Counterexample for claim C10 as stated: decoding `C10_cexBytes`
succeeds with 65537 stored constant-pool slots, while the wrapping
`count - 1` is 1, so the stored slot count does not equal
`constant_pool_count - 1` computed with wrapping 16-bit subtraction. -/
theorem claim_C10_counterexample :
    (classParser.classfile_decode [] C10_cexBytes).2.isSome = true ∧
    ((classParser.classfile_decode [] C10_cexBytes).2.map
      (fun cf => cf.constant_pool.length)).getD 0 = 65537 ∧
    (2 + 65535) % 65536 = 1 ∧ (65537 : Nat) ≠ 1 := by
  have hlong : ∀ rest : List Nat,
      classParser.ConstantPoolInfo.parse (5 :: 0 :: 0 :: 0 :: 0 :: 0 :: 0 :: 0 :: 1 :: rest) =
        some (⟨5, .Long 1⟩, rest) := by
    intro rest
    simp [classParser.ConstantPoolInfo.parse, classParser.ConstantType.parse,
      be_u8, be_u16, be_u32, classParser.ConstantType.value]
  have hpool : classParser.parse_constant_pool
      (5 :: 0 :: 0 :: 0 :: 0 :: 0 :: 0 :: 0 :: 1 ::
        (List.replicate 65535 2 ++ [0, 0, 0, 0, 0, 0, 0, 0, 0, 0, 0, 0, 0, 0])) 2 =
      some (⟨5, .Long 1⟩ :: classParser.ConstantPoolInfo.new_empty ::
              List.replicate 65535 ⟨1, .Utf8 []⟩,
            [0, 0, 0, 0, 0, 0, 0, 0, 0, 0, 0, 0, 0, 0]) := by
    unfold classParser.parse_constant_pool
    have hlen : (5 :: 0 :: 0 :: 0 :: 0 :: 0 :: 0 :: 0 :: 1 ::
        (List.replicate 65535 2 ++ [0, 0, 0, 0, 0, 0, 0, 0, 0, 0, 0, 0, 0, 0])).length + 1 =
        65559 := by
      rw [List.length_cons, List.length_cons, List.length_cons, List.length_cons,
        List.length_cons, List.length_cons, List.length_cons, List.length_cons,
        List.length_cons, List.length_append, List.length_replicate,
        show ([0, 0, 0, 0, 0, 0, 0, 0, 0, 0, 0, 0, 0, 0] : List Nat).length = 14 from rfl]
    rw [hlen]
    rw [show ((2 + 65535) % 65536 : Nat) = 0 + 1 by norm_num]
    rw [show (65559 : Nat) = 65558 + 1 from rfl]
    rw [classParser.parse_constant_pool_loop.eq_3]
    rw [hlong]
    have hd : (⟨5, .Long 1⟩ : classParser.ConstantPoolInfo).is_double_size = true := rfl
    simp only []
    rw [if_pos hd]
    rw [show ((0 + 1 + 65534) % 65536 : Nat) = 65535 by norm_num]
    rw [classParser.parse_constant_pool_loop_replicate_tag2 65535 65558 _
      (by omega) (by omega)]
  have hhp2 : classParser.classfile_header_pool C10_cexBytes =
      some (0xCAFEBABE, 0, 0, 2,
            ⟨5, .Long 1⟩ :: classParser.ConstantPoolInfo.new_empty ::
              List.replicate 65535 ⟨1, .Utf8 []⟩,
            [0, 0, 0, 0, 0, 0, 0, 0, 0, 0, 0, 0, 0, 0]) :=
    classParser.classfile_header_pool_build _ _ _ hpool
  have hdec : (classParser.classfile_decode [] C10_cexBytes).2 =
      some ⟨0xCAFEBABE, 0, 0, 2,
            ⟨5, .Long 1⟩ :: classParser.ConstantPoolInfo.new_empty ::
              List.replicate 65535 ⟨1, .Utf8 []⟩,
            AccessFlags.new_class_flag 0, 0, 0, [], [], [], []⟩ :=
    classParser.classfile_decode_build [] C10_cexBytes _ _ _ _ _ _ _ hhp2
      (classParser.classfile_rest_zero_tail _ _ _ _ _)
  have hbig : ((⟨5, .Long 1⟩ : classParser.ConstantPoolInfo) ::
      classParser.ConstantPoolInfo.new_empty ::
      List.replicate 65535 (⟨1, .Utf8 []⟩ : classParser.ConstantPoolInfo)).length =
      65537 := by
    rw [List.length_cons, List.length_cons, List.length_replicate]
  rw [hdec]
  refine ⟨rfl, ?_, by norm_num, by norm_num⟩
  rw [Option.map_some', Option.getD_some]
  exact hbig

/-! ## Claim C8: stack-map frame-type ranges -/

theorem countN_length {α : Type} (p : List Nat → Option (α × List Nat)) :
    ∀ n bytes as rest, countN p n bytes = some (as, rest) → as.length = n := by
  intro n
  induction n with
  | zero =>
    intro bytes as rest h
    simp [countN] at h
    rw [h.1]
    rfl
  | succ m ih =>
    intro bytes as rest h
    simp only [countN] at h
    split at h
    · exact absurd h (by simp)
    rename_i a rest0 hp
    split at h
    · exact absurd h (by simp)
    rename_i as' rest' hrec
    rw [Option.some.injEq, Prod.mk.injEq] at h
    obtain ⟨has, -⟩ := h
    rw [← has, List.length_cons, ih _ _ _ hrec]

namespace classParser

/-- The eight stack-map frame families named by the spec. -/
inductive FrameClass where
  | SameFrame | SameLocals1StackItemFrame | Invalid
  | SameLocals1StackItemFrameExtended | ChopFrame | SameFrameExtended
  | AppendFrame | FullFrame
deriving DecidableEq

/-- Modelled from the spec: the frame family that the spec's range table
(section 3, StackMapFrame) assigns to a frame-type byte. -/
def frame_type_class (b : Nat) : FrameClass :=
  if b ≤ 63 then .SameFrame
  else if b ≤ 127 then .SameLocals1StackItemFrame
  else if b ≤ 246 then .Invalid
  else if b = 247 then .SameLocals1StackItemFrameExtended
  else if b ≤ 250 then .ChopFrame
  else if b = 251 then .SameFrameExtended
  else if b ≤ 254 then .AppendFrame
  else .FullFrame

/-- The frame family of a decoded `StackMapFrame` variant. -/
def StackMapFrame.classify : StackMapFrame → FrameClass
  | .SameFrame _ => .SameFrame
  | .SameLocals1StackItemFrame _ _ => .SameLocals1StackItemFrame
  | .SameLocals1StackItemFrameExtended _ _ _ => .SameLocals1StackItemFrameExtended
  | .ChopFrame _ _ => .ChopFrame
  | .SameFrameExtended _ _ => .SameFrameExtended
  | .AppendFrame _ _ _ => .AppendFrame
  | .FullFrame _ _ _ _ => .FullFrame
  | .Invalid => .Invalid

end classParser

set_option maxRecDepth 4096 in
/-- Claim C8: `StackMapFrame::parse` selects the variant by the numeric
range of the frame-type byte exactly as the spec's range table assigns it
(0-63 SameFrame, 64-127 SameLocals1StackItemFrame, 128-246 Invalid, 247
SameLocals1StackItemFrameExtended, 248-250 ChopFrame, 251
SameFrameExtended, 252-254 AppendFrame with `type - 251` appended locals,
255 FullFrame), and in particular byte 63 decodes as SameFrame, 64 as
SameLocals1StackItemFrame, 200 as Invalid, 247 as
SameLocals1StackItemFrameExtended, 253 as AppendFrame with exactly 2
appended locals, and 255 as FullFrame. -/
theorem claim_C8 :
    (∀ b bytes fr rest, b < 256 →
       classParser.StackMapFrame.parse (b :: bytes) = some (fr, rest) →
       fr.classify = classParser.frame_type_class b ∧
       (∀ ft od locals, fr = .AppendFrame ft od locals → locals.length = b - 251)) ∧
    classParser.StackMapFrame.parse [63] = some (.SameFrame 63, []) ∧
    classParser.StackMapFrame.parse [64, 0] =
      some (.SameLocals1StackItemFrame 64 .Top, []) ∧
    classParser.StackMapFrame.parse [200] = some (.Invalid, []) ∧
    classParser.StackMapFrame.parse [247, 0, 0, 0] =
      some (.SameLocals1StackItemFrameExtended 247 0 .Top, []) ∧
    classParser.StackMapFrame.parse [253, 0, 0, 0, 0] =
      some (.AppendFrame 253 0 [.Top, .Top], []) ∧
    classParser.StackMapFrame.parse [255, 0, 0, 0, 0, 0, 0] =
      some (.FullFrame 255 0 [] [], []) := by
  refine ⟨?_, by decide, by decide, by decide, by decide, by decide, by decide⟩
  intro b bytes fr rest hb h
  unfold classParser.StackMapFrame.parse at h
  simp only [be_u8] at h
  rw [Nat.mod_eq_of_lt hb] at h
  repeat' split at h
  all_goals try exact Option.noConfusion h
  all_goals
    rw [Option.some.injEq, Prod.mk.injEq] at h
  all_goals
    obtain ⟨hfr, -⟩ := h
  all_goals
    subst hfr
  all_goals
    constructor
  all_goals try
    intro ft od locals heq
  all_goals try exact classParser.StackMapFrame.noConfusion heq
  all_goals first
    | (injection heq with h1 h2 h3
       rw [← h3]
       rename_i hcount
       exact countN_length classParser.VerificationTypeInfo.parse _ _ _ _ hcount)
    | (simp_all [classParser.StackMapFrame.classify, classParser.frame_type_class]
       try ((repeat' split) <;> first | rfl | omega))

/-- Witness for claim C8's range statement at frame-type byte 200. -/
theorem claim_C8_witness :
    classParser.StackMapFrame.classify .Invalid = classParser.frame_type_class 200 :=
  (claim_C8.1 200 [] .Invalid [] (by decide) (by decide)).1

/-! ## Claim C6: unrecognised tags and attribute names are recoverable -/

/-- A class file whose 2-entry pool consists of one unknown-tag (2)
constant, with empty interface/field/method/attribute sections. -/
def C6_tag_bytes : List Nat :=
  [0xCA, 0xFE, 0xBA, 0xBE, 0, 0, 0, 0, 0, 2, 2,
   0, 0, 0, 0, 0, 0, 0, 0, 0, 0, 0, 0, 0, 0]

/-- Claim C6: an unrecognised constant-pool tag never aborts the decode —
the entry becomes the empty-text `Utf8 ""` placeholder (with only the tag
byte consumed) — an unrecognised attribute name yields the opaque
`Attribute::None` payload, and decoding of the rest of the file continues
and can still succeed (shown on a whole class file containing unknown tag
2, and on an attribute record named by an unrecognised string). -/
theorem claim_C6 :
    (∀ tag bytes, tag < 256 →
       tag ∉ ([1, 3, 4, 5, 6, 7, 8, 9, 10, 11, 12, 15, 16, 18] : List Nat) →
       classParser.ConstantPoolInfo.parse (tag :: bytes) =
         some (⟨1, .Utf8 []⟩, bytes)) ∧
    (∀ p attr_str bytes,
       attr_str ∉ [classParser.CODE_ATTRIBUTE_NAME,
         classParser.CONSTANT_VALUE_ATTRIBUTE_NAME,
         classParser.STACK_MAP_TABLE_ATTRIBUTE_NAME,
         classParser.LINE_NUMBER_TABLE_ATTRIBUTE_NAME,
         classParser.SOURCE_FILE_ATTRIBUTE_NAME,
         classParser.DEPRECATED_ATTRIBUTE_NAME] →
       classParser.parse_attribute_with p attr_str bytes = some (.None, bytes)) ∧
    (classParser.classfile_decode [] C6_tag_bytes).2.isSome = true ∧
    classParser.AttributeInfo_parse 4 [⟨1, .Utf8 [70, 111, 111]⟩]
      [0, 1, 0, 0, 0, 2, 9, 9] = some (.mk 1 2 .None, []) := by
  refine ⟨?_, ?_, by decide, by rfl⟩
  · intro tag bytes h256 hmem
    simp only [List.mem_cons, List.not_mem_nil, or_false, not_or] at hmem
    obtain ⟨h1, h3, h4, h5, h6, h7, h8, h9, h10, h11, h12, h15, h16, h18⟩ := hmem
    unfold classParser.ConstantPoolInfo.parse classParser.ConstantType.parse
    simp only [be_u8]
    rw [Nat.mod_eq_of_lt h256]
    simp [h1, h3, h4, h5, h6, h7, h8, h9, h10, h11, h12, h15, h16, h18,
      classParser.ConstantType.value]
  · intro p attr_str bytes hmem
    simp only [List.mem_cons, List.not_mem_nil, or_false, not_or] at hmem
    obtain ⟨hc, hcv, hsm, hln, hsf, hd⟩ := hmem
    unfold classParser.parse_attribute_with
    simp [hc, hcv, hsm, hln, hsf, hd]

/-- Witness for claim C6's unknown-tag statement at tag 2. -/
theorem claim_C6_witness :
    classParser.ConstantPoolInfo.parse [2] =
      some (⟨1, classParser.ConstantType.Utf8 []⟩, []) :=
  claim_C6.1 2 [] (by decide) (by decide)

/-! ## Claim C5: attribute records and stream alignment -/

theorem be_u8_drop {bs r : List Nat} {v : Nat} (h : be_u8 bs = some (v, r)) :
    r = bs.drop 1 ∧ bs.length = r.length + 1 := by
  cases bs with
  | nil => simp [be_u8] at h
  | cons b rest =>
    simp [be_u8] at h
    simp [← h.2]

theorem be_u16_drop {bs r : List Nat} {v : Nat} (h : be_u16 bs = some (v, r)) :
    r = bs.drop 2 ∧ bs.length = r.length + 2 := by
  unfold be_u16 at h
  split at h
  · exact absurd h (by simp)
  rename_i b0 r0 h0
  split at h
  · exact absurd h (by simp)
  rename_i b1 r1 h1
  rw [Option.some.injEq, Prod.mk.injEq] at h
  obtain ⟨-, hr⟩ := h
  obtain ⟨hd0, hl0⟩ := be_u8_drop h0
  obtain ⟨hd1, hl1⟩ := be_u8_drop h1
  subst hr
  constructor
  · rw [hd1, hd0, List.drop_drop]
  · omega

theorem be_u32_drop {bs r : List Nat} {v : Nat} (h : be_u32 bs = some (v, r)) :
    r = bs.drop 4 ∧ bs.length = r.length + 4 := by
  unfold be_u32 at h
  split at h
  · exact absurd h (by simp)
  rename_i b0 r0 h0
  split at h
  · exact absurd h (by simp)
  rename_i b1 r1 h1
  rw [Option.some.injEq, Prod.mk.injEq] at h
  obtain ⟨-, hr⟩ := h
  obtain ⟨hd0, hl0⟩ := be_u16_drop h0
  obtain ⟨hd1, hl1⟩ := be_u16_drop h1
  subst hr
  constructor
  · rw [hd1, hd0, List.drop_drop]
  · omega

theorem countN_be_u8_drop :
    ∀ (n : Nat) (bs : List Nat) (v : List Nat) (r : List Nat),
    countN be_u8 n bs = some (v, r) → r = bs.drop n ∧ bs.length = r.length + n := by
  intro n
  induction n with
  | zero =>
    intro bs v r h
    simp [countN] at h
    simp [h.2]
  | succ m ih =>
    intro bs v r h
    simp only [countN] at h
    split at h
    · exact absurd h (by simp)
    rename_i a r0 h0
    split at h
    · exact absurd h (by simp)
    rename_i as' r1 h1
    rw [Option.some.injEq, Prod.mk.injEq] at h
    obtain ⟨-, hr⟩ := h
    obtain ⟨hd0, hl0⟩ := be_u8_drop h0
    obtain ⟨hd1, hl1⟩ := ih _ _ _ h1
    subst hr
    constructor
    · rw [hd1, hd0, List.drop_drop]
      congr 1
      omega
    · omega

/-- Claim C5 (amended): every successfully decoded attribute record
consumes exactly the 2-byte name index, the 4-byte declared length and
exactly `attribute_length` payload bytes from the enclosing stream —
including when the attribute name is unrecognised, or the name index
resolves to a non-Utf8 entry (opaque payload) — so stream alignment is
preserved.  The typed payload decoder runs on exactly the
`attribute_length`-byte payload (so it can never consume more), but no
round-trip equality between declared length and consumed payload length
is checked: see the counterexample. -/
theorem claim_C5 (fuel : Nat) (cp : List classParser.ConstantPoolInfo)
    (bytes : List Nat) (a : classParser.AttributeInfo) (rest : List Nat)
    (h : classParser.AttributeInfo_parse fuel cp bytes = some (a, rest)) :
    bytes.length = rest.length + (6 + a.attribute_length) ∧
    rest = bytes.drop (6 + a.attribute_length) := by
  cases fuel with
  | zero => simp [classParser.AttributeInfo_parse] at h
  | succ f =>
    unfold classParser.AttributeInfo_parse at h
    split at h
    · exact Option.noConfusion h
    rename_i idx bytes1 h1
    split at h
    · exact Option.noConfusion h
    rename_i len bytes2 h2
    split at h
    · exact Option.noConfusion h
    rename_i info_v rest2 h3
    split at h
    · exact Option.noConfusion h
    rename_i hidx
    split at h
    · exact Option.noConfusion h
    rename_i entry hentry
    obtain ⟨hd1, hl1⟩ := be_u16_drop h1
    obtain ⟨hd2, hl2⟩ := be_u32_drop h2
    obtain ⟨hd3, hl3⟩ := countN_be_u8_drop _ _ _ _ h3
    have hdrop : rest2 = bytes.drop (6 + len) := by
      rw [hd3, hd2, hd1, List.drop_drop, List.drop_drop]
      congr 1
      omega
    split at h
    · rw [Option.some.injEq, Prod.mk.injEq] at h
      obtain ⟨hfr, hrest⟩ := h
      subst hrest
      rw [← hfr]
      simp only [classParser.AttributeInfo.attribute_length]
      exact ⟨by omega, hdrop⟩
    · rename_i attr_str hstr
      split at h
      · exact Option.noConfusion h
      rename_i attr rest3 hattr
      rw [Option.some.injEq, Prod.mk.injEq] at h
      obtain ⟨hfr, hrest⟩ := h
      subst hrest
      rw [← hfr]
      simp only [classParser.AttributeInfo.attribute_length]
      exact ⟨by omega, hdrop⟩

/-- Witness for claim C5: a 2-byte ConstantValue-free record with an
unrecognised name and declared length 2. -/
theorem claim_C5_witness :
    ([0, 1, 0, 0, 0, 2, 9, 9] : List Nat).length =
      ([] : List Nat).length +
        (6 + (classParser.AttributeInfo.mk 1 2 .None).attribute_length) ∧
    ([] : List Nat) =
      ([0, 1, 0, 0, 0, 2, 9, 9] : List Nat).drop
        (6 + (classParser.AttributeInfo.mk 1 2 .None).attribute_length) :=
  claim_C5 4 [⟨1, .Utf8 [70, 111, 111]⟩] [0, 1, 0, 0, 0, 2, 9, 9]
    (.mk 1 2 .None) [] (by rfl)

/-- Counterexample for claim C5 as stated: a SourceFile attribute with
declared length 4 decodes successfully although its typed payload decoder
consumes only 2 of the 4 payload bytes (leftover `[9, 9]`), so the
declared byte length does not equal the payload length consumed by the
selected typed decoder. -/
theorem claim_C5_counterexample :
    classParser.AttributeInfo_parse 4
        [⟨1, .Utf8 classParser.SOURCE_FILE_ATTRIBUTE_NAME⟩]
        [0, 1, 0, 0, 0, 4, 0, 1, 9, 9] =
      some (.mk 1 4 (.SourceFile ⟨1⟩), []) ∧
    classParser.SourceFile.parse [0, 1, 9, 9] = some (⟨1⟩, [9, 9]) ∧
    4 - ([9, 9] : List Nat).length ≠ 4 :=
  ⟨by rfl, by decide, by decide⟩

/-! ## Claim C7: dex diff-index accumulation -/

namespace dexParser

/-- The absolute id index the spec's invariant assigns to entry `i` of a
diff-encoded field list whose accumulator starts at `cur`: the absolute
index of entry `i-1` (or the start value for `i = 0`) plus entry `i`'s
declared diff, as computed by the code's `u32` accumulation. -/
def absIdxF : List EncodedField → Nat → Nat → Nat
  | [], cur, _ => cur
  | e :: _, cur, 0 => (e.field_idx_diff + cur) % 2 ^ 32
  | e :: es, cur, i + 1 => absIdxF es ((e.field_idx_diff + cur) % 2 ^ 32) i

/-- The method-list counterpart of `absIdxF`. -/
def absIdxM : List EncodedMethod → Nat → Nat → Nat
  | [], cur, _ => cur
  | e :: _, cur, 0 => (e.method_idx_diff + cur) % 2 ^ 32
  | e :: es, cur, i + 1 => absIdxM es ((e.method_idx_diff + cur) % 2 ^ 32) i

theorem parse_encoded_fields_spec (ftab : List FieldIdItem) :
    ∀ n cur bytes fields rest,
    parse_encoded_fields ftab n cur bytes = some (fields, rest) →
    ∀ i e, fields.get? i = some e →
    ftab.get? (absIdxF fields cur i) = some e.field := by
  intro n
  induction n with
  | zero =>
    intro cur bytes fields rest h i e hget
    simp [parse_encoded_fields] at h
    rw [h.1] at hget
    simp at hget
  | succ m ih =>
    intro cur bytes fields rest h i e hget
    simp only [parse_encoded_fields] at h
    split at h
    · exact Option.noConfusion h
    rename_i field rest0 hp
    split at h
    · exact Option.noConfusion h
    rename_i fitem hlook
    split at h
    · exact Option.noConfusion h
    rename_i fields' rest' hrec
    rw [Option.some.injEq, Prod.mk.injEq] at h
    obtain ⟨hfr, -⟩ := h
    subst hfr
    match i, hget with
    | 0, hget =>
      simp only [List.get?] at hget
      rw [Option.some.injEq] at hget
      rw [← hget]
      simpa [absIdxF] using hlook
    | (k + 1), hget =>
      have hget' : fields'.get? k = some e := hget
      simpa [absIdxF] using ih _ _ _ _ hrec k e hget'

theorem parse_encoded_methods_spec (mtab : List MethodIdItem) (origin : List Nat) :
    ∀ n cur bytes methods rest,
    parse_encoded_methods mtab origin n cur bytes = some (methods, rest) →
    ∀ i e, methods.get? i = some e →
    mtab.get? (absIdxM methods cur i) = some e.method := by
  intro n
  induction n with
  | zero =>
    intro cur bytes methods rest h i e hget
    simp [parse_encoded_methods] at h
    rw [h.1] at hget
    simp at hget
  | succ m ih =>
    intro cur bytes methods rest h i e hget
    simp only [parse_encoded_methods] at h
    split at h
    · exact Option.noConfusion h
    rename_i method rest0 hp
    split at h
    · exact Option.noConfusion h
    rename_i mitem hlook
    split at h
    · exact Option.noConfusion h
    rename_i code_item hcode
    split at h
    · exact Option.noConfusion h
    rename_i methods' rest' hrec
    rw [Option.some.injEq, Prod.mk.injEq] at h
    obtain ⟨hfr, -⟩ := h
    subst hfr
    match i, hget with
    | 0, hget =>
      simp only [List.get?] at hget
      rw [Option.some.injEq] at hget
      rw [← hget]
      simpa [absIdxM] using hlook
    | (k + 1), hget =>
      have hget' : methods'.get? k = some e := hget
      simpa [absIdxM] using ih _ _ _ _ hrec k e hget'

end dexParser

/-- A 9-entry field-id table whose entries are distinguished by their
`name_idx`. -/
def C7_ftab : List dexParser.FieldIdItem :=
  [⟨0, ⟨0⟩, 0, ⟨0⟩, 0⟩, ⟨0, ⟨0⟩, 0, ⟨0⟩, 1⟩, ⟨0, ⟨0⟩, 0, ⟨0⟩, 2⟩,
   ⟨0, ⟨0⟩, 0, ⟨0⟩, 3⟩, ⟨0, ⟨0⟩, 0, ⟨0⟩, 4⟩, ⟨0, ⟨0⟩, 0, ⟨0⟩, 5⟩,
   ⟨0, ⟨0⟩, 0, ⟨0⟩, 6⟩, ⟨0, ⟨0⟩, 0, ⟨0⟩, 7⟩, ⟨0, ⟨0⟩, 0, ⟨0⟩, 8⟩]

/-- Claim C7: in `ClassDataItem::parse`, within each of the four lists
independently, the resolved reference of entry `i` is the id-table entry
at the absolute index obtained by adding entry `i`'s declared diff to the
absolute index of entry `i-1` (0-based accumulator reset to 0 at the
start of each list); concretely, static-field diffs `[5, 0, 3]` resolve
to absolute indices `[5, 5, 8]`. -/
theorem claim_C7 :
    (∀ (ftab : List dexParser.FieldIdItem) (mtab : List dexParser.MethodIdItem)
       (bytes origin : List Nat) (cdi : dexParser.ClassDataItem) (rest : List Nat),
       dexParser.ClassDataItem.parse ftab mtab bytes origin = some (cdi, rest) →
       (∀ i e, cdi.static_fields.get? i = some e →
          ftab.get? (dexParser.absIdxF cdi.static_fields 0 i) = some e.field) ∧
       (∀ i e, cdi.instance_fields.get? i = some e →
          ftab.get? (dexParser.absIdxF cdi.instance_fields 0 i) = some e.field) ∧
       (∀ i e, cdi.direct_methods.get? i = some e →
          mtab.get? (dexParser.absIdxM cdi.direct_methods 0 i) = some e.method) ∧
       (∀ i e, cdi.virtual_methods.get? i = some e →
          mtab.get? (dexParser.absIdxM cdi.virtual_methods 0 i) = some e.method)) ∧
    (dexParser.ClassDataItem.parse C7_ftab [] [3, 0, 0, 0, 5, 0, 0, 0, 3, 0] []).map
        (fun p => p.1.static_fields.map (fun e => e.field.name_idx)) =
      some [5, 5, 8] := by
  constructor
  · intro ftab mtab bytes origin cdi rest h
    unfold dexParser.ClassDataItem.parse at h
    repeat' split at h
    all_goals try exact Option.noConfusion h
    rw [Option.some.injEq, Prod.mk.injEq] at h
    obtain ⟨hfr, -⟩ := h
    subst hfr
    refine ⟨?_, ?_, ?_, ?_⟩
    · exact fun i e hget =>
        dexParser.parse_encoded_fields_spec ftab _ _ _ _ _ (by assumption) i e hget
    · exact fun i e hget =>
        dexParser.parse_encoded_fields_spec ftab _ _ _ _ _ (by assumption) i e hget
    · exact fun i e hget =>
        dexParser.parse_encoded_methods_spec mtab _ _ _ _ _ _ (by assumption) i e hget
    · exact fun i e hget =>
        dexParser.parse_encoded_methods_spec mtab _ _ _ _ _ _ (by assumption) i e hget
  · rfl

/-- The decoded class-data of the `[5, 0, 3]` static-field input. -/
def C7_wpair : dexParser.ClassDataItem × List Nat :=
  (dexParser.ClassDataItem.parse C7_ftab [] [3, 0, 0, 0, 5, 0, 0, 0, 3, 0] []).get
    (by decide)

/-- Entry 1 of the decoded static-field list. -/
def C7_wentry : dexParser.EncodedField :=
  (C7_wpair.1.static_fields.get? 1).getD ⟨0, AccessFlags.new_field_flag 0, default⟩

/-- Witness for claim C7 on the concrete `[5, 0, 3]` input: entry 1 of
the decoded static-field list resolves to table index 5. -/
theorem claim_C7_witness :
    C7_ftab.get? (dexParser.absIdxF C7_wpair.1.static_fields 0 1) =
      some C7_wentry.field :=
  (claim_C7.1 C7_ftab [] [3, 0, 0, 0, 5, 0, 0, 0, 3, 0] [] C7_wpair.1 C7_wpair.2
    ((Option.some_get (by decide)).symm)).1 1 C7_wentry (by decide)

/-! ## Claim C3: dex string-id text -/

theorem countN_be_u8_take :
    ∀ (n : Nat) (bs v r : List Nat),
    countN be_u8 n bs = some (v, r) → v = (bs.take n).map (· % 256) := by
  intro n
  induction n with
  | zero =>
    intro bs v r h
    simp [countN] at h
    simp [h.1]
  | succ m ih =>
    intro bs v r h
    simp only [countN] at h
    split at h
    · exact Option.noConfusion h
    rename_i a r0 h0
    split at h
    · exact Option.noConfusion h
    rename_i as' r1 h1
    rw [Option.some.injEq, Prod.mk.injEq] at h
    obtain ⟨hv, -⟩ := h
    cases bs with
    | nil => simp [be_u8] at h0
    | cons b rest =>
      simp [be_u8] at h0
      obtain ⟨hb, hr0⟩ := h0
      subst hr0
      rw [← hv, ← hb, List.take_succ_cons, List.map_cons, ih _ _ _ h1]

/-- Claim C3 (amended): for every dex string-id entry the decoder follows
the entry's absolute offset into the original buffer and reads a ULEB128
length there (recorded as the declared UTF-16 size), but it produces the
stored text by taking exactly that many raw bytes following the varint —
it does not decode them as NUL-terminated modified UTF-16 (the
`parse_utf16_str` helper implementing that decoding, surrogate formula
included, is left unused by `DexFile::parse`).  See the counterexample:
the raw read runs through a zero byte at which the claimed decoding would
stop. -/
theorem claim_C3 (origin : List Nat) (off : Nat) (item : dexParser.StringIdItem)
    (h : dexParser.parse_string_id_item origin off = some item) :
    item.string_data_off = off ∧
    item.string_utf16_size = (dexParser.parse_uleb128 (origin.drop off)).1 ∧
    item.string_data =
      ((origin.drop (off + (dexParser.parse_uleb128 (origin.drop off)).2)).take
        item.string_utf16_size).map (· % 256) := by
  unfold dexParser.parse_string_id_item at h
  repeat' split at h
  all_goals try exact Option.noConfusion h
  rename_i ulen udoff upair hle2 sd rest2 hcount
  rw [Option.some.injEq] at h
  rw [← h]
  refine ⟨rfl, ?_, ?_⟩
  · rw [udoff]
  · rw [udoff]
    exact countN_be_u8_take _ _ _ _ hcount

/-- Witness for claim C3: a 2-byte string at offset 0. -/
theorem claim_C3_witness :
    (⟨0, 2, [65, 66]⟩ : dexParser.StringIdItem).string_data_off = 0 ∧
    (⟨0, 2, [65, 66]⟩ : dexParser.StringIdItem).string_utf16_size =
      (dexParser.parse_uleb128 (([2, 65, 66] : List Nat).drop 0)).1 ∧
    (⟨0, 2, [65, 66]⟩ : dexParser.StringIdItem).string_data =
      ((([2, 65, 66] : List Nat).drop
          (0 + (dexParser.parse_uleb128 (([2, 65, 66] : List Nat).drop 0)).2)).take
        (⟨0, 2, [65, 66]⟩ : dexParser.StringIdItem).string_utf16_size).map (· % 256) :=
  claim_C3 [2, 65, 66] 0 ⟨0, 2, [65, 66]⟩ (by decide)

/-- Counterexample for claim C3 as stated: at offset 0 of the buffer
`[2, 0, 65]` the decoder stores the raw bytes `[0, 65]` — reading past
the zero byte — while the claimed NUL-terminated modified-UTF-16 decoding
(`parse_utf16_str`) stops at the zero byte and yields no code units. -/
theorem claim_C3_counterexample :
    dexParser.parse_string_id_item [2, 0, 65] 0 = some ⟨0, 2, [0, 65]⟩ ∧
    dexParser.parse_utf16_str [0, 65] = some ([], [0, 65]) ∧
    ([0, 65] : List Nat) ≠ [] := by
  decide

/-! ## Claim C1: decoding and the process-wide tables -/

/-- Claim C1 (amended): although both decoders write process-wide tables
mid-decode (see the counterexample), every read of those tables happens
after the current file's write, so the decode result is a pure function
of the input buffer alone: decoding a buffer yields the same result
whatever the tables held beforehand — in particular, whether or not
another buffer was decoded first — and repeated decodes of identical
bytes yield structurally identical output. -/
theorem claim_C1 :
    (∀ g g' bytes, (classParser.classfile_decode g bytes).2 =
        (classParser.classfile_decode g' bytes).2) ∧
    (∀ g g' bytes, (dexParser.dex_decode g bytes).2 =
        (dexParser.dex_decode g' bytes).2) := by
  constructor
  · intro g g' bytes
    cases h : classParser.classfile_header_pool bytes with
    | none => simp [classParser.classfile_decode, h]
    | some v =>
      obtain ⟨m, mi, ma, cnt, pool, rest⟩ := v
      simp [classParser.classfile_decode, h]
  · intro g g' bytes
    cases h1 : dexParser.dex_stage1 bytes with
    | none => simp [dexParser.dex_decode, h1]
    | some v =>
      obtain ⟨hdr, sids, tids, restb⟩ := v
      cases h2 : dexParser.dex_stage2 bytes hdr tids restb with
      | none => simp [dexParser.dex_decode, h1, h2]
      | some v2 =>
        obtain ⟨protos, fids, mids, rawdefs, rest2⟩ := v2
        cases h3 : dexParser.dex_stage3 bytes tids fids mids rawdefs with
        | none => simp [dexParser.dex_decode, h1, h2, h3]
        | some defs => simp [dexParser.dex_decode, h1, h2, h3]

/-- A truncated class file: magic, version, count 2 and one Integer
constant, ending before the access-flags field. -/
def C1_cexBytes : List Nat :=
  [0xCA, 0xFE, 0xBA, 0xBE, 0, 0, 0, 0, 0, 2, 3, 0, 0, 0, 7]

/-- Counterexample for claim C1 as stated: the class-file decoder does
use a process-wide mutable table — decoding `C1_cexBytes` overwrites
`CONSTANT_POOL_REF` with the file's pool (even though the decode itself
then fails on truncation), so the table is no longer in its initial
state. -/
theorem claim_C1_counterexample :
    (classParser.classfile_decode [] C1_cexBytes).1 = [⟨3, .Integer 7⟩] ∧
    ([⟨3, .Integer 7⟩] : List classParser.ConstantPoolInfo) ≠ [] ∧
    (classParser.classfile_decode [] C1_cexBytes).2 = none :=
  ⟨rfl, List.cons_ne_nil _ _, rfl⟩
